import Mathlib

/-!
Verification of the speech segmentation engine of silero-vad-go
(src/speech/detector.go), as a shallow embedding.

Conventions of the embedding:
* Go `int` fields are modelled as `ℤ` (the values exercised here are far
  from 64-bit overflow); Go integer division (which truncates toward zero)
  is `Int.tdiv`.
* Go `float32`/`float64` values (probabilities, thresholds, timestamps) are
  modelled as `ℚ`, i.e. arithmetic is exact; comparisons on given inputs
  agree with the source since every float value is a rational.
* The ONNX inference call (`sd.infer`) is external C code; it is modelled
  as an oracle `infer : List ℚ → Except String ℚ` mapping a window of
  samples to a probability, and most theorems quantify over the resulting
  probability sequence directly.
* `Detect` mutates its receiver and returns `([]Segment, error)`; we model
  it as a function returning the final mutable state paired with
  `Except String (List Segment)` (on error Go returns a nil slice but the
  receiver keeps its mutations, which the pair captures).
-/

/-- Configuration of the detector, from `DetectorConfig` in
src/speech/detector.go (the ONNX `LogLevel` field only affects logging and
is omitted). -/
structure DetectorConfig where
  modelPath : String
  sampleRate : ℤ
  threshold : ℚ
  negativeThreshold : ℚ
  minSilenceDurationMs : ℤ
  minSpeechDurationMs : ℤ
  speechPadMs : ℤ
deriving DecidableEq, Repr

/-- `DetectorConfig.IsValid` from src/speech/detector.go: returns the first
violated constraint's error message, or `none` when the configuration is
valid. -/
def isValid (c : DetectorConfig) : Option String :=
  if c.modelPath = "" then
    some "invalid ModelPath: should not be empty"
  else if c.sampleRate ≠ 8000 ∧ c.sampleRate ≠ 16000 then
    some "invalid SampleRate: valid values are 8000 and 16000"
  else if c.threshold ≤ 0 ∨ 1 ≤ c.threshold then
    some "invalid Threshold: should be in range (0, 1)"
  else if c.negativeThreshold < 0 ∨ 1 ≤ c.negativeThreshold then
    some "invalid NegativeThreshold: should be in range [0, 1)"
  else if 0 < c.negativeThreshold ∧ c.threshold ≤ c.negativeThreshold then
    some "invalid NegativeThreshold: should be less than Threshold"
  else if c.minSilenceDurationMs < 0 then
    some "invalid MinSilenceDurationMs: should be a positive number"
  else if c.minSpeechDurationMs < 0 then
    some "invalid MinSpeechDurationMs: should be a positive number"
  else if c.speechPadMs < 0 then
    some "invalid SpeechPadMs: should be a positive number"
  else
    none

/-- The eight error messages `IsValid` can produce, in source order. -/
def isValidMessages : List String :=
  [ "invalid ModelPath: should not be empty"
  , "invalid SampleRate: valid values are 8000 and 16000"
  , "invalid Threshold: should be in range (0, 1)"
  , "invalid NegativeThreshold: should be in range [0, 1)"
  , "invalid NegativeThreshold: should be less than Threshold"
  , "invalid MinSilenceDurationMs: should be a positive number"
  , "invalid MinSpeechDurationMs: should be a positive number"
  , "invalid SpeechPadMs: should be a positive number" ]

/-- The configuration normalization performed by `NewDetector`
(src/speech/detector.go lines 124-132) after validation: an unset (zero)
`NegativeThreshold` becomes `Threshold - 0.15`, and an unset (zero)
`MinSpeechDurationMs` becomes 250 ms. -/
def normalizeConfig (cfg : DetectorConfig) : DetectorConfig :=
  let cfg1 :=
    if cfg.negativeThreshold = 0 then
      { cfg with negativeThreshold := cfg.threshold - 15/100 }
    else cfg
  if cfg1.minSpeechDurationMs = 0 then
    { cfg1 with minSpeechDurationMs := 250 }
  else cfg1

/-- `windowSize` as computed at the top of `Detect`: 256 samples at 8 kHz,
512 otherwise. -/
def windowSizeOf (cfg : DetectorConfig) : ℤ :=
  if cfg.sampleRate = 8000 then 256 else 512

/-- Same window size as a natural number, for slicing the sample buffer. -/
def windowSizeNat (cfg : DetectorConfig) : ℕ :=
  if cfg.sampleRate = 8000 then 256 else 512

/-- `minSilenceSamples := MinSilenceDurationMs * SampleRate / 1000`
(Go integer division). -/
def minSilenceSamples (cfg : DetectorConfig) : ℤ :=
  Int.tdiv (cfg.minSilenceDurationMs * cfg.sampleRate) 1000

/-- `speechPadSamples := SpeechPadMs * SampleRate / 1000`
(Go integer division). -/
def speechPadSamples (cfg : DetectorConfig) : ℤ :=
  Int.tdiv (cfg.speechPadMs * cfg.sampleRate) 1000

/-- `minSpeechSamples := MinSpeechDurationMs * SampleRate / 1000`
(Go integer division). -/
def minSpeechSamples (cfg : DetectorConfig) : ℤ :=
  Int.tdiv (cfg.minSpeechDurationMs * cfg.sampleRate) 1000

/-- The mutable segmentation state of a `Detector`
(fields `currSample`, `triggered`, `tempEnd`). -/
structure DetState where
  currSample : ℤ
  triggered : Bool
  tempEnd : ℤ
deriving DecidableEq, Repr

/-- The state installed by `Reset` (and by construction). -/
def resetState : DetState := ⟨0, false, 0⟩

/-- A speech segment: start and end timestamps in seconds
(`SpeechEndAt = 0` means the segment is still open). -/
structure Segment where
  speechStartAt : ℚ
  speechEndAt : ℚ
deriving DecidableEq, Repr

/-- The start timestamp computed on a trigger:
`(currSample - windowSize - speechPadSamples) / sampleRate`, clamped at 0
(`curr` is the already-advanced `currSample`). -/
def speechStartTime (cfg : DetectorConfig) (curr : ℤ) : ℚ :=
  let raw : ℚ := ((curr - windowSizeOf cfg - speechPadSamples cfg : ℤ) : ℚ) /
    (cfg.sampleRate : ℚ)
  if raw < 0 then 0 else raw

/-- The end timestamp computed on a close:
`(tempEnd + speechPadSamples) / sampleRate`. -/
def speechEndTime (cfg : DetectorConfig) (te : ℤ) : ℚ :=
  ((te + speechPadSamples cfg : ℤ) : ℚ) / (cfg.sampleRate : ℚ)

/-- The loop accumulator of one `Detect` call: the detector state plus the
local `segments` slice. -/
structure LoopAcc where
  st : DetState
  segs : List Segment
deriving DecidableEq, Repr

/-- The re-arm block (src/speech/detector.go lines 234-236), run after
`currSample` has been advanced: a speech-probability window cancels any
pending silence candidate. -/
def rearmStep (cfg : DetectorConfig) (p : ℚ) (st : DetState) : DetState :=
  if cfg.threshold ≤ p ∧ st.tempEnd ≠ 0 then { st with tempEnd := 0 } else st

/-- The trigger block (src/speech/detector.go lines 238-251): a
speech-probability window on an untriggered detector opens a new segment
whose start is the (clamped) padded position of the current window. -/
def triggerStep (cfg : DetectorConfig) (p : ℚ) (st : DetState)
    (segs : List Segment) : DetState × List Segment :=
  if cfg.threshold ≤ p ∧ st.triggered = false then
    ({ st with triggered := true },
     segs ++ [⟨speechStartTime cfg st.currSample, 0⟩])
  else (st, segs)

/-- The silence-candidate / close block (src/speech/detector.go lines
253-273): a silence-probability window on a triggered detector arms or
extends the candidate end, and once `minSilenceSamples` of silence have
accumulated it closes the last segment — erroring if no segment was
emitted in this call. -/
def closeStep (cfg : DetectorConfig) (p : ℚ) (st : DetState)
    (segs : List Segment) : (DetState × List Segment) × Option String :=
  if p < cfg.negativeThreshold ∧ st.triggered = true then
    let te1 := if st.tempEnd = 0 then st.currSample else st.tempEnd
    if st.currSample - te1 < minSilenceSamples cfg then
      (({ st with tempEnd := te1 }, segs), none)
    else
      match segs.getLast? with
      | none =>
          (({ st with triggered := false, tempEnd := 0 }, segs),
           some "unexpected speech end")
      | some lastSeg =>
          (({ st with triggered := false, tempEnd := 0 },
            segs.dropLast ++
              [{ lastSeg with speechEndAt := speechEndTime cfg te1 }]),
           none)
  else ((st, segs), none)

/-- One iteration of the window loop of `Detect`
(src/speech/detector.go lines 226-274), given the probability returned by
inference for this window: advance `currSample`, then run the re-arm,
trigger and close blocks in order.  Returns the updated accumulator
together with `some msg` when the iteration returns an error
("unexpected speech end"). -/
def stepWindow (cfg : DetectorConfig) (acc : LoopAcc) (p : ℚ) :
    LoopAcc × Option String :=
  let st1 := { acc.st with currSample := acc.st.currSample + windowSizeOf cfg }
  let st2 := rearmStep cfg p st1
  let tr := triggerStep cfg p st2 acc.segs
  let cl := closeStep cfg p tr.1 tr.2
  (⟨cl.1.1, cl.1.2⟩, cl.2)

/-- The window loop of `Detect` over a list of probabilities: runs
`stepWindow` on each in turn, stopping at the first error. -/
def runProbs (cfg : DetectorConfig) (acc : LoopAcc) :
    List ℚ → LoopAcc × Option String
  | [] => (acc, none)
  | p :: ps =>
    match stepWindow cfg acc p with
    | (acc1, none) => runProbs cfg acc1 ps
    | (acc1, some e) => (acc1, some e)

/-- The post-filter predicate (src/speech/detector.go lines 281-298): open
segments are kept; closed ones are kept when
`(SpeechEndAt - SpeechStartAt) * SampleRate ≥ minSpeechSamples`. -/
def keepSegment (cfg : DetectorConfig) (s : Segment) : Bool :=
  if s.speechEndAt = 0 then true
  else decide (((minSpeechSamples cfg : ℤ) : ℚ) ≤
    (s.speechEndAt - s.speechStartAt) * (cfg.sampleRate : ℚ))

/-- The short-segment post-filter, applied only when
`MinSpeechDurationMs > 0`. -/
def filterSegments (cfg : DetectorConfig) (segs : List Segment) : List Segment :=
  if 0 < cfg.minSpeechDurationMs then segs.filter (keepSegment cfg) else segs

/-- `Detect` at the level of a probability sequence: run the window loop on
the given probabilities starting from detector state `st`, then post-filter.
Returns the final detector state and either the segment list or the error. -/
def detectProbs (cfg : DetectorConfig) (st : DetState) (probs : List ℚ) :
    DetState × Except String (List Segment) :=
  let r := runProbs cfg ⟨st, []⟩ probs
  match r.2 with
  | some e => (r.1.st, Except.error e)
  | none => (r.1.st, Except.ok (filterSegments cfg r.1.segs))

/-- The windows visited by the loop
`for i := 0; i < len(pcm)-windowSize; i += windowSize { pcm[i : i+windowSize] }`,
written with explicit fuel (the loop condition at offset `i` says the
remaining suffix is strictly longer than one window; the initial length is
enough fuel since each iteration drops `w ≥ 1` samples). -/
def goWindowsAux (w : ℕ) : ℕ → List ℚ → List (List ℚ)
  | 0, _ => []
  | Nat.succ fuel, pcm =>
    if w < pcm.length then pcm.take w :: goWindowsAux w fuel (pcm.drop w)
    else []

/-- The windows of `pcm` that `Detect` feeds to inference. -/
def goWindows (w : ℕ) (pcm : List ℚ) : List (List ℚ) :=
  goWindowsAux w pcm.length pcm

/-- The window loop of `Detect` over the sliced sample buffer, with the
inference oracle: an inference failure at a window aborts with the wrapped
message, before the state machine consumes that window. -/
def runWindows (cfg : DetectorConfig) (infer : List ℚ → Except String ℚ)
    (acc : LoopAcc) : List (List ℚ) → LoopAcc × Option String
  | [] => (acc, none)
  | win :: rest =>
    match infer win with
    | Except.error e => (acc, some ("infer failed: " ++ e))
    | Except.ok p =>
      match stepWindow cfg acc p with
      | (acc1, none) => runWindows cfg infer acc1 rest
      | (acc1, some e) => (acc1, some e)

/-- `Detect` (src/speech/detector.go lines 205-303) over a sample buffer:
the insufficient-samples check, the window loop driven by the inference
oracle, and the post-filter. -/
def detect (cfg : DetectorConfig) (infer : List ℚ → Except String ℚ)
    (st : DetState) (pcm : List ℚ) :
    DetState × Except String (List Segment) :=
  if pcm.length < windowSizeNat cfg then (st, Except.error "not enough samples")
  else
    let r := runWindows cfg infer ⟨st, []⟩ (goWindows (windowSizeNat cfg) pcm)
    match r.2 with
    | some e => (r.1.st, Except.error e)
    | none => (r.1.st, Except.ok (filterSegments cfg r.1.segs))

/-- The last segment of the list exists and is still open
(`SpeechEndAt = 0`). -/
def lastOpen (segs : List Segment) : Prop :=
  ∃ s, segs.getLast? = some s ∧ s.speechEndAt = 0

instance (segs : List Segment) : Decidable (lastOpen segs) := by
  unfold lastOpen
  cases h : segs.getLast? with
  | none => exact .isFalse (by simp [h])
  | some s => exact decidable_of_iff (s.speechEndAt = 0) (by simp [h])

/-- The condition under which the current window performs a silence-close
on an already-triggered detector: the probability is silence-confirming,
the detector entered the window triggered, and the (possibly just-armed)
candidate `tempEnd` has accumulated at least `minSilenceSamples` of
silence. -/
def closesNow (cfg : DetectorConfig) (st : DetState) (p : ℚ) : Prop :=
  let curr := st.currSample + windowSizeOf cfg
  let te0 := if cfg.threshold ≤ p ∧ st.tempEnd ≠ 0 then 0 else st.tempEnd
  let te1 := if te0 = 0 then curr else te0
  p < cfg.negativeThreshold ∧ st.triggered = true ∧
    minSilenceSamples cfg ≤ curr - te1

instance (cfg : DetectorConfig) (st : DetState) (p : ℚ) :
    Decidable (closesNow cfg st p) := by
  unfold closesNow
  exact inferInstance

/-!  ## C8: characterization of `IsValid`  -/

/-- C8: for every configuration with a non-empty `ModelPath`, `IsValid`
succeeds exactly when the sample rate is 8000 or 16000, the threshold lies
in (0,1), the negative threshold lies in [0,1) and is either 0 or below the
threshold, and the three millisecond durations are non-negative; any error
is one of the eight pairwise-distinct messages. -/
theorem c8_isValid_characterization (cfg : DetectorConfig)
    (h : cfg.modelPath ≠ "") :
    (isValid cfg = none ↔
      ((cfg.sampleRate = 8000 ∨ cfg.sampleRate = 16000) ∧
       0 < cfg.threshold ∧ cfg.threshold < 1 ∧
       0 ≤ cfg.negativeThreshold ∧ cfg.negativeThreshold < 1 ∧
       (cfg.negativeThreshold = 0 ∨ cfg.negativeThreshold < cfg.threshold) ∧
       0 ≤ cfg.minSilenceDurationMs ∧ 0 ≤ cfg.minSpeechDurationMs ∧
       0 ≤ cfg.speechPadMs)) ∧
    (∀ m, isValid cfg = some m → m ∈ isValidMessages) ∧
    isValidMessages.Pairwise (fun a b => a ≠ b) := by
  refine ⟨⟨?_, ?_⟩, ?_, by decide⟩
  · intro hv
    unfold isValid at hv
    split_ifs at hv with h1 h2 h3 h4 h5 h6 h7 h8
    push_neg at h2 h3 h4 h6 h7 h8
    refine ⟨?_, h3.1, h3.2, h4.1, h4.2, ?_, h6, h7, h8⟩
    · by_cases hsr : cfg.sampleRate = 8000
      · exact Or.inl hsr
      · exact Or.inr (h2 hsr)
    · rcases eq_or_lt_of_le h4.1 with he | hl
      · exact Or.inl he.symm
      · refine Or.inr ?_
        by_contra hc
        exact h5 ⟨hl, le_of_not_lt hc⟩
  · rintro ⟨hsr, ht0, ht1, hn0, hn1, hnt, hms, hmsp, hpad⟩
    unfold isValid
    split_ifs with h1 h2 h3 h4 h5 h6 h7 h8
    · exact absurd h1 h
    · tauto
    · rcases h3 with h3 | h3 <;> linarith
    · rcases h4 with h4 | h4 <;> linarith
    · rcases hnt with he | hl
      · rw [he] at h5
        exact absurd h5.1 (lt_irrefl 0)
      · linarith [h5.2]
    · linarith
    · linarith
    · linarith
    · rfl
  · intro m hm
    unfold isValid at hm
    split_ifs at hm <;> simp_all [isValidMessages]

/-- A configuration passing every `IsValid` check, to instantiate C8. -/
def c8WitnessCfg : DetectorConfig :=
  ⟨"model.onnx", 16000, 1/2, 7/20, 100, 250, 30⟩

/-- Witness for C8 at a concrete valid configuration. -/
theorem c8_isValid_characterization_witness :
    c8WitnessCfg.modelPath ≠ "" ∧
    (isValid c8WitnessCfg = none ↔
      ((c8WitnessCfg.sampleRate = 8000 ∨ c8WitnessCfg.sampleRate = 16000) ∧
       0 < c8WitnessCfg.threshold ∧ c8WitnessCfg.threshold < 1 ∧
       0 ≤ c8WitnessCfg.negativeThreshold ∧ c8WitnessCfg.negativeThreshold < 1 ∧
       (c8WitnessCfg.negativeThreshold = 0 ∨
        c8WitnessCfg.negativeThreshold < c8WitnessCfg.threshold) ∧
       0 ≤ c8WitnessCfg.minSilenceDurationMs ∧
       0 ≤ c8WitnessCfg.minSpeechDurationMs ∧
       0 ≤ c8WitnessCfg.speechPadMs)) :=
  ⟨by decide, (c8_isValid_characterization c8WitnessCfg (by decide)).1⟩

/-!  ## C3: the default `NegativeThreshold` substituted by `NewDetector`  -/

/-- A valid configuration with `Threshold = 0.1 < 0.15` and unset
`NegativeThreshold`. -/
def c3CexCfg : DetectorConfig := ⟨"model.onnx", 16000, 1/10, 0, 0, 0, 0⟩

/-- C3 counterexample: this configuration passes validation with
`NegativeThreshold = 0`, yet `NewDetector` substitutes
`0.1 - 0.15 = -0.05 < 0` — the substituted value is negative, refuting the
claim that it is always non-negative. -/
theorem c3_counterexample :
    isValid c3CexCfg = none ∧ c3CexCfg.negativeThreshold = 0 ∧
    (normalizeConfig c3CexCfg).negativeThreshold = -(1/20) ∧
    (normalizeConfig c3CexCfg).negativeThreshold < 0 := by
  refine ⟨?_, by norm_num [c3CexCfg], ?_, ?_⟩ <;>
    norm_num [isValid, normalizeConfig, c3CexCfg,
      (by decide : ("model.onnx" : String) ≠ "")]

/-- C3 amended: for every configuration that passes validation with
`NegativeThreshold = 0`, `NewDetector` substitutes
`NegativeThreshold = Threshold - 0.15`; the substituted value is
non-negative if and only if `Threshold ≥ 0.15` (no clamping is applied). -/
theorem c3_default_negative_threshold (cfg : DetectorConfig)
    (hv : isValid cfg = none) (h0 : cfg.negativeThreshold = 0) :
    (normalizeConfig cfg).negativeThreshold = cfg.threshold - 15/100 ∧
    (0 ≤ (normalizeConfig cfg).negativeThreshold ↔ 15/100 ≤ cfg.threshold) := by
  clear hv
  unfold normalizeConfig
  rw [if_pos h0]
  dsimp only
  split_ifs <;>
    exact ⟨rfl, by constructor <;> intro <;> linarith⟩

/-- A valid configuration with unset `NegativeThreshold` and
`Threshold = 0.5`, to instantiate the amended C3. -/
def c3WitnessCfg : DetectorConfig := ⟨"model.onnx", 16000, 1/2, 0, 0, 0, 0⟩

/-- Witness for the amended C3 at a concrete configuration. -/
theorem c3_default_negative_threshold_witness :
    isValid c3WitnessCfg = none ∧ c3WitnessCfg.negativeThreshold = 0 ∧
    ((normalizeConfig c3WitnessCfg).negativeThreshold =
        c3WitnessCfg.threshold - 15/100 ∧
     (0 ≤ (normalizeConfig c3WitnessCfg).negativeThreshold ↔
        15/100 ≤ c3WitnessCfg.threshold)) :=
  ⟨by norm_num [isValid, c3WitnessCfg,
      (by decide : ("model.onnx" : String) ≠ "")],
   by norm_num [c3WitnessCfg],
   c3_default_negative_threshold c3WitnessCfg
     (by norm_num [isValid, c3WitnessCfg,
        (by decide : ("model.onnx" : String) ≠ "")])
     (by norm_num [c3WitnessCfg])⟩

/-!  ## C2: which windows the `Detect` loop processes  -/

/-- Characterization of the loop
`for i := 0; i < len(pcm)-windowSize; i += windowSize`: the windows visited
are the consecutive non-overlapping slices at offsets `0, w, 2w, …`, and
there are exactly `(len - 1) / w` of them. -/
theorem goWindowsAux_eq (w : ℕ) (hw : 0 < w) :
    ∀ (fuel : ℕ) (pcm : List ℚ), pcm.length ≤ fuel →
      goWindowsAux w fuel pcm =
        (List.range ((pcm.length - 1) / w)).map
          (fun k => (pcm.drop (k * w)).take w) := by
  intro fuel
  induction fuel with
  | zero =>
    intro pcm hlen
    have hnil : pcm = [] := List.length_eq_zero.mp (Nat.le_zero.mp hlen)
    subst hnil
    simp [goWindowsAux]
  | succ fuel ih =>
    intro pcm hlen
    by_cases h : w < pcm.length
    · rw [goWindowsAux, if_pos h, ih (pcm.drop w) (by simp; omega)]
      have hdiv : (pcm.length - 1) / w = ((pcm.drop w).length - 1) / w + 1 := by
        have h1 : w ≤ pcm.length - 1 := by omega
        rw [Nat.div_eq_sub_div hw h1]
        have h2 : pcm.length - 1 - w = (pcm.drop w).length - 1 := by
          simp
          omega
        rw [h2]
      rw [hdiv, List.range_succ_eq_map]
      simp only [List.map_cons, List.map_map]
      congr 1
      · simp
      · refine List.map_congr_left (fun k hk => ?_)
        simp only [Function.comp_apply, List.drop_drop]
        congr 2
        rw [Nat.succ_mul]
        omega
    · rw [goWindowsAux, if_neg h]
      rw [Nat.div_eq_of_lt (by omega)]
      simp

/-- C2 amended: for `0 < w`, the loop of `Detect` feeds inference exactly
the `⌊(len(pcm) - 1) / w⌋` consecutive non-overlapping windows of size `w`
at offsets `0, w, 2w, …`.  When `w` does not divide `len(pcm)` this equals
`⌊len(pcm)/w⌋` (only a trailing remainder shorter than one window is
dropped), but when `len(pcm)` is an exact multiple of `w` the final full
window is dropped as well and only `len(pcm)/w - 1` windows are
processed. -/
theorem c2_windows_processed (w : ℕ) (pcm : List ℚ) (hw : 0 < w) :
    goWindows w pcm =
      (List.range ((pcm.length - 1) / w)).map
        (fun k => (pcm.drop (k * w)).take w) ∧
    (¬ w ∣ pcm.length → (goWindows w pcm).length = pcm.length / w) ∧
    (w ∣ pcm.length → w ≤ pcm.length →
      (goWindows w pcm).length = pcm.length / w - 1) := by
  have hmain := goWindowsAux_eq w hw pcm.length pcm le_rfl
  have hlen : (goWindows w pcm).length = (pcm.length - 1) / w := by
    rw [goWindows, hmain]
    simp
  refine ⟨hmain, ?_, ?_⟩
  · intro hdvd
    have h1 : 1 ≤ pcm.length := by
      rcases Nat.eq_zero_or_pos pcm.length with h0 | h0
      · exact absurd (h0 ▸ Nat.dvd_zero w) hdvd
      · exact h0
    have hsd := Nat.succ_div (pcm.length - 1) w
    rw [Nat.sub_add_cancel h1, if_neg hdvd] at hsd
    rw [hlen, hsd]
    simp
  · intro hdvd hle
    have h1 : 1 ≤ pcm.length := le_trans hw hle
    have hsd := Nat.succ_div (pcm.length - 1) w
    rw [Nat.sub_add_cancel h1, if_pos hdvd] at hsd
    rw [hlen, hsd]
    simp

/-- Witness for the amended C2 at `w = 512` and a 600-sample buffer. -/
theorem c2_windows_processed_witness :
    0 < 512 ∧
    (goWindows 512 (List.replicate 600 0) =
      (List.range (((List.replicate 600 (0:ℚ)).length - 1) / 512)).map
        (fun k => ((List.replicate 600 (0:ℚ)).drop (k * 512)).take 512) ∧
    (¬ 512 ∣ (List.replicate 600 (0:ℚ)).length →
      (goWindows 512 (List.replicate 600 0)).length =
        (List.replicate 600 (0:ℚ)).length / 512) ∧
    (512 ∣ (List.replicate 600 (0:ℚ)).length →
      512 ≤ (List.replicate 600 (0:ℚ)).length →
      (goWindows 512 (List.replicate 600 0)).length =
        (List.replicate 600 (0:ℚ)).length / 512 - 1)) :=
  ⟨by norm_num, c2_windows_processed 512 (List.replicate 600 0) (by norm_num)⟩

/-- An 8 kHz configuration, so the window size is 256 samples. -/
def c2Cfg : DetectorConfig := ⟨"model.onnx", 8000, 1/2, 7/20, 0, 0, 0⟩

/-- A buffer whose length is exactly one window (an exact multiple of the
window size). -/
def c2Pcm : List ℚ := List.replicate 256 0

/-- C2 counterexample: on a 256-sample buffer at 8 kHz
(`windowSize = 256`, `len/windowSize = 1`), `Detect` processes zero
windows — the inference adapter is never invoked (an always-failing adapter
produces no error) and the call returns successfully with no segments,
refuting the claim that all `⌊len/windowSize⌋` windows of an
exact-multiple buffer are processed. -/
theorem c2_counterexample :
    c2Pcm.length = 256 ∧ windowSizeNat c2Cfg = 256 ∧
    c2Pcm.length / windowSizeNat c2Cfg = 1 ∧
    goWindows (windowSizeNat c2Cfg) c2Pcm = [] ∧
    detect c2Cfg (fun _ => Except.error "inference must not be called")
      resetState c2Pcm = (resetState, Except.ok []) := by
  have hw : windowSizeNat c2Cfg = 256 := by norm_num [windowSizeNat, c2Cfg]
  have hg : goWindows (windowSizeNat c2Cfg) c2Pcm = [] := by
    have hx := goWindowsAux_eq (windowSizeNat c2Cfg)
      (by rw [hw]; norm_num) c2Pcm.length c2Pcm le_rfl
    rw [goWindows, hx, hw]
    norm_num [c2Pcm]
  refine ⟨by norm_num [c2Pcm], hw, by rw [hw]; norm_num [c2Pcm], hg, ?_⟩
  rw [detect, if_neg (by rw [hw]; norm_num [c2Pcm]), hg]
  simp [runWindows, filterSegments, c2Cfg]

/-!  ## Case analysis of the three phases of one window  -/

/-- Exhaustive description of the re-arm block. -/
theorem rearmStep_cases (cfg : DetectorConfig) (p : ℚ) (st : DetState) :
    (cfg.threshold ≤ p ∧ st.tempEnd ≠ 0 ∧
      rearmStep cfg p st = { st with tempEnd := 0 }) ∨
    (¬(cfg.threshold ≤ p ∧ st.tempEnd ≠ 0) ∧ rearmStep cfg p st = st) := by
  unfold rearmStep
  split_ifs with h
  · exact Or.inl ⟨h.1, h.2, rfl⟩
  · exact Or.inr ⟨h, rfl⟩

/-- Exhaustive description of the trigger block. -/
theorem triggerStep_cases (cfg : DetectorConfig) (p : ℚ) (st : DetState)
    (segs : List Segment) :
    (cfg.threshold ≤ p ∧ st.triggered = false ∧
      triggerStep cfg p st segs =
        ({ st with triggered := true },
         segs ++ [⟨speechStartTime cfg st.currSample, 0⟩])) ∨
    (¬(cfg.threshold ≤ p ∧ st.triggered = false) ∧
      triggerStep cfg p st segs = (st, segs)) := by
  unfold triggerStep
  split_ifs with h
  · exact Or.inl ⟨h.1, h.2, rfl⟩
  · exact Or.inr ⟨h, rfl⟩

/-- Exhaustive description of the silence-candidate / close block. -/
theorem closeStep_cases (cfg : DetectorConfig) (p : ℚ) (st : DetState)
    (segs : List Segment) :
    (¬(p < cfg.negativeThreshold ∧ st.triggered = true) ∧
      closeStep cfg p st segs = ((st, segs), none)) ∨
    (p < cfg.negativeThreshold ∧ st.triggered = true ∧
      st.currSample - (if st.tempEnd = 0 then st.currSample else st.tempEnd) <
        minSilenceSamples cfg ∧
      closeStep cfg p st segs =
        (({ st with
             tempEnd := if st.tempEnd = 0 then st.currSample else st.tempEnd },
          segs), none)) ∨
    (p < cfg.negativeThreshold ∧ st.triggered = true ∧
      minSilenceSamples cfg ≤
        st.currSample - (if st.tempEnd = 0 then st.currSample else st.tempEnd) ∧
      segs = [] ∧
      closeStep cfg p st segs =
        (({ st with triggered := false, tempEnd := 0 }, segs),
         some "unexpected speech end")) ∨
    (∃ lastSeg, p < cfg.negativeThreshold ∧ st.triggered = true ∧
      minSilenceSamples cfg ≤
        st.currSample - (if st.tempEnd = 0 then st.currSample else st.tempEnd) ∧
      segs.getLast? = some lastSeg ∧
      closeStep cfg p st segs =
        (({ st with triggered := false, tempEnd := 0 },
          segs.dropLast ++
            [{ lastSeg with
                speechEndAt :=
                  speechEndTime cfg
                    (if st.tempEnd = 0 then st.currSample else st.tempEnd) }]),
         none)) := by
  unfold closeStep
  by_cases h1 : p < cfg.negativeThreshold ∧ st.triggered = true
  · rw [if_pos h1]
    dsimp only
    by_cases h2 : st.currSample -
        (if st.tempEnd = 0 then st.currSample else st.tempEnd) <
        minSilenceSamples cfg
    · rw [if_pos h2]
      exact Or.inr (Or.inl ⟨h1.1, h1.2, h2, rfl⟩)
    · rw [if_neg h2]
      rcases hl : segs.getLast? with _ | lastSeg
      · simp only [hl]
        exact Or.inr (Or.inr (Or.inl ⟨h1.1, h1.2, le_of_not_lt h2,
          List.getLast?_eq_none_iff.mp hl, trivial⟩))
      · simp only [hl]
        exact Or.inr (Or.inr (Or.inr ⟨lastSeg, h1.1, h1.2, le_of_not_lt h2,
          rfl, rfl⟩))
  · rw [if_neg h1]
    exact Or.inl ⟨h1, rfl⟩

/-- `stepWindow` written through its three phases. -/
theorem stepWindow_eq (cfg : DetectorConfig) (acc : LoopAcc) (p : ℚ) :
    stepWindow cfg acc p =
      (⟨(closeStep cfg p
            (triggerStep cfg p
              (rearmStep cfg p
                { acc.st with
                    currSample := acc.st.currSample + windowSizeOf cfg })
              acc.segs).1
            (triggerStep cfg p
              (rearmStep cfg p
                { acc.st with
                    currSample := acc.st.currSample + windowSizeOf cfg })
              acc.segs).2).1.1,
        (closeStep cfg p
            (triggerStep cfg p
              (rearmStep cfg p
                { acc.st with
                    currSample := acc.st.currSample + windowSizeOf cfg })
              acc.segs).1
            (triggerStep cfg p
              (rearmStep cfg p
                { acc.st with
                    currSample := acc.st.currSample + windowSizeOf cfg })
              acc.segs).2).1.2⟩,
       (closeStep cfg p
            (triggerStep cfg p
              (rearmStep cfg p
                { acc.st with
                    currSample := acc.st.currSample + windowSizeOf cfg })
              acc.segs).1
            (triggerStep cfg p
              (rearmStep cfg p
                { acc.st with
                    currSample := acc.st.currSample + windowSizeOf cfg })
              acc.segs).2).2) := rfl

/-- Unfolding of `runProbs` on a non-empty probability list. -/
theorem runProbs_cons (cfg : DetectorConfig) (acc : LoopAcc) (p : ℚ)
    (ps : List ℚ) :
    runProbs cfg acc (p :: ps) =
      if (stepWindow cfg acc p).2 = none
      then runProbs cfg (stepWindow cfg acc p).1 ps
      else ((stepWindow cfg acc p).1, (stepWindow cfg acc p).2) := by
  rcases hs : stepWindow cfg acc p with ⟨a1, e⟩
  cases e <;> simp [runProbs, hs]

/-- The window size is always positive (256 or 512 samples). -/
theorem windowSizeOf_pos (cfg : DetectorConfig) : 0 < windowSizeOf cfg := by
  unfold windowSizeOf
  split_ifs <;> norm_num

/-- The re-arm block never changes `currSample`. -/
theorem rearmStep_currSample (cfg : DetectorConfig) (p : ℚ) (st : DetState) :
    (rearmStep cfg p st).currSample = st.currSample := by
  unfold rearmStep
  split_ifs <;> rfl

/-- The re-arm block never changes `triggered`. -/
theorem rearmStep_triggered (cfg : DetectorConfig) (p : ℚ) (st : DetState) :
    (rearmStep cfg p st).triggered = st.triggered := by
  unfold rearmStep
  split_ifs <;> rfl

/-!  ## C5: the "unexpected speech end" error  -/

/-- The basic well-formedness invariant of the loop accumulator: a
triggered detector has emitted at least one segment in this call. -/
def InvA (acc : LoopAcc) : Prop := acc.st.triggered = true → acc.segs ≠ []

/-- One window preserves `InvA` and, under `InvA`, never errors. -/
theorem stepWindow_invA (cfg : DetectorConfig) (acc : LoopAcc) (p : ℚ)
    (h : InvA acc) :
    (stepWindow cfg acc p).2 = none ∧ InvA (stepWindow cfg acc p).1 := by
  rw [stepWindow_eq]
  have key : ∀ st2 : DetState, st2.triggered = acc.st.triggered →
      (closeStep cfg p (triggerStep cfg p st2 acc.segs).1
          (triggerStep cfg p st2 acc.segs).2).2 = none ∧
      InvA ⟨(closeStep cfg p (triggerStep cfg p st2 acc.segs).1
          (triggerStep cfg p st2 acc.segs).2).1.1,
        (closeStep cfg p (triggerStep cfg p st2 acc.segs).1
          (triggerStep cfg p st2 acc.segs).2).1.2⟩ := by
    intro st2 h2
    rcases triggerStep_cases cfg p st2 acc.segs with ⟨hp, hf, hte⟩ | ⟨hnt, hte⟩ <;>
      rw [hte] <;> dsimp only <;>
      [rcases closeStep_cases cfg p { st2 with triggered := true }
          (acc.segs ++ [⟨speechStartTime cfg st2.currSample, 0⟩]) with
          ⟨hc, hce⟩ | ⟨hc1, hc2, hc3, hce⟩ | ⟨hc1, hc2, hc3, hc4, hce⟩ |
          ⟨lastSeg, hc1, hc2, hc3, hc4, hce⟩;
       rcases closeStep_cases cfg p st2 acc.segs with
          ⟨hc, hce⟩ | ⟨hc1, hc2, hc3, hce⟩ | ⟨hc1, hc2, hc3, hc4, hce⟩ |
          ⟨lastSeg, hc1, hc2, hc3, hc4, hce⟩] <;>
      rw [hce] <;> dsimp only <;> unfold InvA <;> dsimp only
    · exact ⟨rfl, fun _ => by simp⟩
    · exact ⟨rfl, fun _ => by simp⟩
    · exact absurd hc4 (by simp)
    · exact ⟨rfl, fun hco => by simp at hco⟩
    · exact ⟨rfl, fun htr => h (h2 ▸ htr)⟩
    · exact ⟨rfl, fun htr => h (h2 ▸ hc2)⟩
    · exact absurd hc4 (h (h2 ▸ hc2))
    · exact ⟨rfl, fun hco => by simp at hco⟩
  exact key _ ((rearmStep_triggered cfg p _).trans rfl)

/-- The loop preserves `InvA` and, started from an accumulator satisfying
it, never errors. -/
theorem runProbs_invA (cfg : DetectorConfig) (acc : LoopAcc)
    (probs : List ℚ) (h : InvA acc) :
    (runProbs cfg acc probs).2 = none ∧ InvA (runProbs cfg acc probs).1 := by
  induction probs generalizing acc with
  | nil => exact ⟨rfl, h⟩
  | cons p ps ih =>
    have hs := stepWindow_invA cfg acc p h
    rw [runProbs_cons, if_pos hs.1]
    exact ih _ hs.2

/-- The re-arm block computes exactly the conditional reset of `tempEnd`. -/
theorem rearmStep_tempEnd (cfg : DetectorConfig) (p : ℚ) (st : DetState) :
    (rearmStep cfg p st).tempEnd =
      if cfg.threshold ≤ p ∧ st.tempEnd ≠ 0 then 0 else st.tempEnd := by
  unfold rearmStep
  split_ifs <;> rfl

/-- Characterization of the only error a window can produce: it is the
"unexpected speech end" error, and it occurs exactly when the window
performs a silence-close while no segment has been emitted in the current
call. -/
theorem stepWindow_error_iff (cfg : DetectorConfig) (acc : LoopAcc) (p : ℚ) :
    ((stepWindow cfg acc p).2 = some "unexpected speech end" ↔
      (acc.segs = [] ∧ closesNow cfg acc.st p)) ∧
    ((stepWindow cfg acc p).2 = none ∨
     (stepWindow cfg acc p).2 = some "unexpected speech end") := by
  rw [stepWindow_eq]
  unfold closesNow
  dsimp only
  rcases rearmStep_cases cfg p
      { acc.st with currSample := acc.st.currSample + windowSizeOf cfg } with
      ⟨hr1, hr2, hre⟩ | ⟨hr, hre⟩
  · rw [hre]
    rw [if_pos (show cfg.threshold ≤ p ∧ ¬acc.st.tempEnd = 0 from
      ⟨hr1, by simpa using hr2⟩)]
    simp only [if_pos rfl]
    rcases triggerStep_cases cfg p
        { acc.st with
            currSample := acc.st.currSample + windowSizeOf cfg,
            tempEnd := 0 } acc.segs with ⟨hp, hf, hte⟩ | ⟨hnt, hte⟩ <;>
      rw [hte] <;> dsimp only <;>
      rcases closeStep_cases cfg p _ _ with
        ⟨hc, hce⟩ | ⟨hc1, hc2, hc3, hce⟩ | ⟨hc1, hc2, hc3, hc4, hce⟩ |
        ⟨lastSeg, hc1, hc2, hc3, hc4, hce⟩ <;>
      rw [hce] <;> dsimp only <;> simp_all <;> try tauto
    all_goals
      intro h0
      rw [h0] at hc4
      simp at hc4
  · rw [hre]
    rw [if_neg (show ¬(cfg.threshold ≤ p ∧ ¬acc.st.tempEnd = 0) from
      by simpa using hr)]
    rcases triggerStep_cases cfg p
        { acc.st with
            currSample := acc.st.currSample + windowSizeOf cfg } acc.segs with
        ⟨hp, hf, hte⟩ | ⟨hnt, hte⟩ <;>
      rw [hte] <;> dsimp only <;>
      rcases closeStep_cases cfg p _ _ with
        ⟨hc, hce⟩ | ⟨hc1, hc2, hc3, hce⟩ | ⟨hc1, hc2, hc3, hc4, hce⟩ |
        ⟨lastSeg, hc1, hc2, hc3, hc4, hce⟩ <;>
      rw [hce] <;> dsimp only <;> simp_all <;> try tauto
    all_goals
      intro h0
      rw [h0] at hc4
      simp at hc4

/-- C5: the close block fails with the "unexpected speech end" error
exactly when a silence-close fires while no segment has been emitted in
the current call (it never continues silently, and no other error exists);
and for every `Detect` call starting from the reset state this error is
unreachable for every probability sequence. -/
theorem c5_unexpected_speech_end (cfg : DetectorConfig) (acc : LoopAcc)
    (p : ℚ) (probs : List ℚ) :
    ((stepWindow cfg acc p).2 = some "unexpected speech end" ↔
      (acc.segs = [] ∧ closesNow cfg acc.st p)) ∧
    ((stepWindow cfg acc p).2 = none ∨
     (stepWindow cfg acc p).2 = some "unexpected speech end") ∧
    (runProbs cfg ⟨resetState, []⟩ probs).2 = none :=
  ⟨(stepWindow_error_iff cfg acc p).1, (stepWindow_error_iff cfg acc p).2,
   (runProbs_invA cfg ⟨resetState, []⟩ probs
     (fun h => by simp [resetState] at h)).1⟩

/-!  ## C4: `triggered` if and only if the last emitted segment is open  -/

/-- An appended open segment makes the last segment open. -/
theorem lastOpen_append (segs : List Segment) (s : Segment)
    (hs : s.speechEndAt = 0) : lastOpen (segs ++ [s]) :=
  ⟨s, List.getLast?_concat segs, hs⟩

/-- Overwriting the last segment's end with a nonzero value makes the
last segment closed. -/
theorem not_lastOpen_close (segs : List Segment) (lastSeg : Segment) (e : ℚ)
    (he : e ≠ 0) :
    ¬ lastOpen (segs.dropLast ++ [{ lastSeg with speechEndAt := e }]) := by
  rintro ⟨s, hs, hs0⟩
  rw [List.getLast?_concat] at hs
  cases hs
  exact he hs0

/-- A close always produces a strictly positive end timestamp, given a
positive sample rate, non-negative padding, and a positive candidate. -/
theorem speechEndTime_pos (cfg : DetectorConfig) (hrate : 0 < cfg.sampleRate)
    (hpad : 0 ≤ cfg.speechPadMs) (te : ℤ) (hte : 0 < te) :
    0 < speechEndTime cfg te := by
  unfold speechEndTime
  have hps : 0 ≤ speechPadSamples cfg :=
    Int.tdiv_nonneg (mul_nonneg hpad (le_of_lt hrate)) (by norm_num)
  refine div_pos ?_ (by exact_mod_cast hrate)
  exact_mod_cast add_pos_of_pos_of_nonneg hte hps

/-- The state/segment-list invariant maintained by every window of a
`Detect` call: `triggered` holds exactly when the call has emitted a
segment and its last segment is still open; an untriggered detector has no
pending candidate; a pending candidate is at least one window into the
stream and no later than `currSample`. -/
def InvB (cfg : DetectorConfig) (acc : LoopAcc) : Prop :=
  (acc.st.triggered = true ↔ lastOpen acc.segs) ∧
  (acc.st.triggered = false → acc.st.tempEnd = 0) ∧
  (acc.st.tempEnd = 0 ∨ windowSizeOf cfg ≤ acc.st.tempEnd) ∧
  acc.st.tempEnd ≤ acc.st.currSample ∧ 0 ≤ acc.st.currSample

/-- The trigger and close blocks preserve the invariant, for any
post-re-arm state at least one window into the stream. -/
theorem closeTrigger_invB (cfg : DetectorConfig) (p : ℚ) (st2 : DetState)
    (segs : List Segment)
    (hrate : 0 < cfg.sampleRate) (hpad : 0 ≤ cfg.speechPadMs)
    (hiff : st2.triggered = true ↔ lastOpen segs)
    (himp : st2.triggered = false → st2.tempEnd = 0)
    (hte : st2.tempEnd = 0 ∨ windowSizeOf cfg ≤ st2.tempEnd)
    (htc : st2.tempEnd ≤ st2.currSample)
    (hws : windowSizeOf cfg ≤ st2.currSample) :
    InvB cfg ⟨(closeStep cfg p (triggerStep cfg p st2 segs).1
        (triggerStep cfg p st2 segs).2).1.1,
      (closeStep cfg p (triggerStep cfg p st2 segs).1
        (triggerStep cfg p st2 segs).2).1.2⟩ := by
  have hw : 0 < windowSizeOf cfg := windowSizeOf_pos cfg
  have hcs : 0 < st2.currSample := lt_of_lt_of_le hw hws
  have hte1 : 0 < (if st2.tempEnd = 0 then st2.currSample else st2.tempEnd) := by
    split_ifs with h0
    · exact hcs
    · rcases hte with h | h
      · exact absurd h h0
      · exact lt_of_lt_of_le hw h
  rcases triggerStep_cases cfg p st2 segs with ⟨hp, hf, htr⟩ | ⟨hnt, htr⟩ <;>
    rw [htr] <;> dsimp only <;>
    rcases closeStep_cases cfg p _ _ with
      ⟨hc, hce⟩ | ⟨hc1, hc2, hc3, hce⟩ | ⟨hc1, hc2, hc3, hc4, hce⟩ |
      ⟨lastSeg, hc1, hc2, hc3, hc4, hce⟩ <;>
    rw [hce] <;> unfold InvB <;> dsimp only
  · exact ⟨⟨fun _ => lastOpen_append segs _ rfl, fun _ => rfl⟩,
      fun hx => Bool.noConfusion hx, hte, htc, le_of_lt hcs⟩
  · refine ⟨⟨fun _ => lastOpen_append segs _ rfl, fun _ => rfl⟩,
      fun hx => Bool.noConfusion hx, ?_, ?_, le_of_lt hcs⟩
    · split_ifs with h0
      · exact Or.inr hws
      · rcases hte with h | h
        · exact absurd h h0
        · exact Or.inr h
    · split_ifs with h0
      · exact le_refl _
      · exact htc
  · exact absurd hc4 (by simp)
  · refine ⟨⟨fun hx => Bool.noConfusion hx, fun hx => ?_⟩,
      fun _ => rfl, Or.inl rfl, le_of_lt hcs, le_of_lt hcs⟩
    exact absurd hx (not_lastOpen_close _ _ _
      (ne_of_gt (speechEndTime_pos cfg hrate hpad _ hte1)))
  · exact ⟨hiff, himp, hte, htc, le_of_lt hcs⟩
  · refine ⟨hiff, fun hx => Bool.noConfusion (hx.symm.trans hc2), ?_, ?_,
      le_of_lt hcs⟩
    · split_ifs with h0
      · exact Or.inr hws
      · rcases hte with h | h
        · exact absurd h h0
        · exact Or.inr h
    · split_ifs with h0
      · exact le_refl _
      · exact htc
  · refine ⟨⟨fun hx => Bool.noConfusion hx, fun hx => ?_⟩,
      fun _ => rfl, Or.inl rfl, le_of_lt hcs, le_of_lt hcs⟩
    rw [hc4] at hx
    simp [lastOpen] at hx
  · refine ⟨⟨fun hx => Bool.noConfusion hx, fun hx => ?_⟩,
      fun _ => rfl, Or.inl rfl, le_of_lt hcs, le_of_lt hcs⟩
    exact absurd hx (not_lastOpen_close _ _ _
      (ne_of_gt (speechEndTime_pos cfg hrate hpad _ hte1)))

/-- One window preserves the invariant `InvB`. -/
theorem stepWindow_invB (cfg : DetectorConfig) (acc : LoopAcc) (p : ℚ)
    (hrate : 0 < cfg.sampleRate) (hpad : 0 ≤ cfg.speechPadMs)
    (h : InvB cfg acc) : InvB cfg (stepWindow cfg acc p).1 := by
  obtain ⟨hiff, himp, hte, htc, hcs⟩ := h
  have hw := windowSizeOf_pos cfg
  rw [stepWindow_eq]
  refine closeTrigger_invB cfg p _ acc.segs hrate hpad ?_ ?_ ?_ ?_ ?_
  · rw [rearmStep_triggered]
    exact hiff
  · rcases rearmStep_cases cfg p
        { acc.st with currSample := acc.st.currSample + windowSizeOf cfg } with
        ⟨h1, h2, hre⟩ | ⟨h1, hre⟩ <;> rw [hre]
    · exact fun _ => rfl
    · exact fun hx => himp hx
  · rcases rearmStep_cases cfg p
        { acc.st with currSample := acc.st.currSample + windowSizeOf cfg } with
        ⟨h1, h2, hre⟩ | ⟨h1, hre⟩ <;> rw [hre]
    · exact Or.inl rfl
    · exact hte
  · rcases rearmStep_cases cfg p
        { acc.st with currSample := acc.st.currSample + windowSizeOf cfg } with
        ⟨h1, h2, hre⟩ | ⟨h1, hre⟩ <;> rw [hre] <;> dsimp only <;> omega
  · rw [rearmStep_currSample]
    dsimp only
    omega

/-- The loop preserves the invariant `InvB`, including when it stops at an
error. -/
theorem runProbs_invB (cfg : DetectorConfig) (acc : LoopAcc)
    (probs : List ℚ) (hrate : 0 < cfg.sampleRate)
    (hpad : 0 ≤ cfg.speechPadMs) (h : InvB cfg acc) :
    InvB cfg (runProbs cfg acc probs).1 := by
  induction probs generalizing acc with
  | nil => exact h
  | cons p ps ih =>
    rw [runProbs_cons]
    split_ifs with he
    · exact ih _ (stepWindow_invB cfg acc p hrate hpad h)
    · exact stepWindow_invB cfg acc p hrate hpad h

/-- C4 amended: after every processed window of a `Detect` call started
from the reset state (positive sample rate, non-negative padding),
`triggered` holds if and only if the call's emitted segment list is
non-empty and its last segment is still open.  (The original claim, over
the whole detector lifetime, fails across calls: see the
counterexample.) -/
theorem c4_triggered_iff_last_open (cfg : DetectorConfig) (probs : List ℚ)
    (hrate : 0 < cfg.sampleRate) (hpad : 0 ≤ cfg.speechPadMs) :
    ((runProbs cfg ⟨resetState, []⟩ probs).1.st.triggered = true ↔
      lastOpen (runProbs cfg ⟨resetState, []⟩ probs).1.segs) :=
  (runProbs_invB cfg ⟨resetState, []⟩ probs hrate hpad
    ⟨by simp [resetState, lastOpen], fun _ => rfl, Or.inl rfl,
     le_refl 0, le_refl 0⟩).1

/-- A valid 16 kHz configuration for the C4 witness. -/
def c4WitnessCfg : DetectorConfig :=
  ⟨"model.onnx", 16000, 1/2, 7/20, 100, 250, 30⟩

/-- Witness for the amended C4 at a concrete configuration and
probability sequence. -/
theorem c4_triggered_iff_last_open_witness :
    0 < c4WitnessCfg.sampleRate ∧ 0 ≤ c4WitnessCfg.speechPadMs ∧
    ((runProbs c4WitnessCfg ⟨resetState, []⟩ [9/10, 1/10]).1.st.triggered =
        true ↔
      lastOpen (runProbs c4WitnessCfg ⟨resetState, []⟩ [9/10, 1/10]).1.segs) :=
  ⟨by norm_num [c4WitnessCfg], by norm_num [c4WitnessCfg],
   c4_triggered_iff_last_open c4WitnessCfg [9/10, 1/10]
     (by norm_num [c4WitnessCfg]) (by norm_num [c4WitnessCfg])⟩

/-!  ## C10: the `tempEnd == 0` sentinel never collides with a candidate  -/

/-- The candidate invariant: the stream position is non-negative and any
pending `tempEnd` candidate lies between one window size and
`currSample`. -/
def InvC (cfg : DetectorConfig) (st : DetState) : Prop :=
  0 ≤ st.currSample ∧
  (st.tempEnd = 0 ∨ windowSizeOf cfg ≤ st.tempEnd) ∧
  st.tempEnd ≤ st.currSample

/-- The trigger and close blocks preserve the candidate invariant. -/
theorem closeTrigger_invC (cfg : DetectorConfig) (p : ℚ) (st2 : DetState)
    (segs : List Segment)
    (hte : st2.tempEnd = 0 ∨ windowSizeOf cfg ≤ st2.tempEnd)
    (htc : st2.tempEnd ≤ st2.currSample)
    (hws : windowSizeOf cfg ≤ st2.currSample) :
    InvC cfg (closeStep cfg p (triggerStep cfg p st2 segs).1
        (triggerStep cfg p st2 segs).2).1.1 := by
  have hw : 0 < windowSizeOf cfg := windowSizeOf_pos cfg
  have hcs : 0 < st2.currSample := lt_of_lt_of_le hw hws
  rcases triggerStep_cases cfg p st2 segs with ⟨hp, hf, htr⟩ | ⟨hnt, htr⟩ <;>
    rw [htr] <;> dsimp only <;>
    rcases closeStep_cases cfg p _ _ with
      ⟨hc, hce⟩ | ⟨hc1, hc2, hc3, hce⟩ | ⟨hc1, hc2, hc3, hc4, hce⟩ |
      ⟨lastSeg, hc1, hc2, hc3, hc4, hce⟩ <;>
    rw [hce] <;> unfold InvC <;> dsimp only <;>
    refine ⟨le_of_lt hcs, ?_, ?_⟩ <;> omega

/-- One window preserves the candidate invariant. -/
theorem stepWindow_invC (cfg : DetectorConfig) (acc : LoopAcc) (p : ℚ)
    (h : InvC cfg acc.st) : InvC cfg (stepWindow cfg acc p).1.st := by
  obtain ⟨hcs, hte, htc⟩ := h
  have hw := windowSizeOf_pos cfg
  rw [stepWindow_eq]
  refine closeTrigger_invC cfg p _ acc.segs ?_ ?_ ?_
  · rcases rearmStep_cases cfg p
        { acc.st with currSample := acc.st.currSample + windowSizeOf cfg } with
        ⟨h1, h2, hre⟩ | ⟨h1, hre⟩ <;> rw [hre]
    · exact Or.inl rfl
    · exact hte
  · rcases rearmStep_cases cfg p
        { acc.st with currSample := acc.st.currSample + windowSizeOf cfg } with
        ⟨h1, h2, hre⟩ | ⟨h1, hre⟩ <;> rw [hre] <;> dsimp only <;> omega
  · rw [rearmStep_currSample]
    dsimp only
    omega

/-- The loop preserves the candidate invariant. -/
theorem runProbs_invC (cfg : DetectorConfig) (acc : LoopAcc)
    (probs : List ℚ) (h : InvC cfg acc.st) :
    InvC cfg (runProbs cfg acc probs).1.st := by
  induction probs generalizing acc with
  | nil => exact h
  | cons p ps ih =>
    rw [runProbs_cons]
    split_ifs with he
    · exact ih _ (stepWindow_invC cfg acc p h)
    · exact stepWindow_invC cfg acc p h

/-- C10: starting from any reachable detector state (non-negative stream
position, candidate invariant), after any probability sequence the
`tempEnd` field is either the 0 sentinel or at least one positive window
size — a genuine silence candidate can never collide with the "no
candidate pending" sentinel, even for a candidate at the first window of
a buffer. -/
theorem c10_tempEnd_sentinel (cfg : DetectorConfig) (st : DetState)
    (segs : List Segment) (probs : List ℚ) (h : InvC cfg st) :
    0 < windowSizeOf cfg ∧
    ((runProbs cfg ⟨st, segs⟩ probs).1.st.tempEnd = 0 ∨
      windowSizeOf cfg ≤ (runProbs cfg ⟨st, segs⟩ probs).1.st.tempEnd) :=
  ⟨windowSizeOf_pos cfg, (runProbs_invC cfg ⟨st, segs⟩ probs h).2.1⟩

/-- An 8 kHz configuration for the C10 witness. -/
def c10WitnessCfg : DetectorConfig :=
  ⟨"model.onnx", 8000, 1/2, 7/20, 0, 250, 0⟩

/-- Witness for C10 from the reset state on a concrete probability
sequence. -/
theorem c10_tempEnd_sentinel_witness :
    InvC c10WitnessCfg resetState ∧
    (0 < windowSizeOf c10WitnessCfg ∧
     ((runProbs c10WitnessCfg ⟨resetState, []⟩ [9/10, 1/10]).1.st.tempEnd =
        0 ∨
      windowSizeOf c10WitnessCfg ≤
        (runProbs c10WitnessCfg ⟨resetState, []⟩ [9/10, 1/10]).1.st.tempEnd)) :=
  ⟨⟨le_refl 0, Or.inl rfl, le_refl 0⟩,
   c10_tempEnd_sentinel c10WitnessCfg resetState [] [9/10, 1/10]
     ⟨le_refl 0, Or.inl rfl, le_refl 0⟩⟩

/-- An 8 kHz configuration (zero silence duration) for the C4
counterexample. -/
def c4CexCfg : DetectorConfig := ⟨"model.onnx", 8000, 1/2, 7/20, 0, 250, 0⟩

/-- C4 counterexample, refuting the claim over the whole detector
lifetime: a first `Detect` call emits one still-open segment and leaves
`triggered = true`; a second call starting in that state meets a
silence-close on its first window, sets `triggered = false` and returns
the "unexpected speech end" error — at that point in the lifetime
`triggered` is false although the last emitted segment (from the first
call) is still open. -/
theorem c4_counterexample :
    detectProbs c4CexCfg resetState [3/5] =
      (⟨256, true, 0⟩, Except.ok [⟨0, 0⟩]) ∧
    detectProbs c4CexCfg ⟨256, true, 0⟩ [1/5] =
      (⟨512, false, 0⟩, Except.error "unexpected speech end") ∧
    (DetState.mk 512 false 0).triggered = false ∧
    lastOpen [(⟨0, 0⟩ : Segment)] := by
  refine ⟨?_, ?_, rfl, ⟨⟨0, 0⟩, by simp, rfl⟩⟩ <;>
    norm_num [detectProbs, runProbs, stepWindow, rearmStep, triggerStep,
      closeStep, speechStartTime, speechEndTime, windowSizeOf,
      speechPadSamples, minSilenceSamples, minSpeechSamples, filterSegments,
      keepSegment, resetState, c4CexCfg]

/-!  ## C9: adapter failures abort the call with no partial result  -/

/-- If some processed window has a failing inference result, the window
loop ends in an error. -/
theorem runWindows_error_of_fail (cfg : DetectorConfig)
    (infer : List ℚ → Except String ℚ) (wins : List (List ℚ))
    (acc : LoopAcc)
    (h : ∃ win ∈ wins, ∀ q, infer win ≠ Except.ok q) :
    ∃ e, (runWindows cfg infer acc wins).2 = some e := by
  induction wins generalizing acc with
  | nil =>
    rcases h with ⟨w0, hw0, -⟩
    simp at hw0
  | cons win rest ih =>
    rcases h with ⟨w0, hw0, hfail⟩
    rcases hi : infer win with e | q
    · exact ⟨"infer failed: " ++ e, by simp [runWindows, hi]⟩
    · rcases List.mem_cons.mp hw0 with he | hm
      · exact absurd hi (he ▸ hfail q)
      · rcases hs : stepWindow cfg acc q with ⟨acc1, err⟩
        cases err with
        | none =>
          have hrec := ih acc1 ⟨w0, hm, hfail⟩
          simpa [runWindows, hi, hs] using hrec
        | some e => exact ⟨e, by simp [runWindows, hi, hs]⟩

/-- C9: a buffer shorter than one window yields the "not enough samples"
error with no segments; an inference failure at any processed window makes
the whole call return an error; and an errored call never also returns a
segment list (the error and success outcomes are mutually exclusive, so
no partial segment list is ever produced). -/
theorem c9_adapter_failure (cfg : DetectorConfig)
    (infer : List ℚ → Except String ℚ) (st : DetState) (pcm : List ℚ) :
    (pcm.length < windowSizeNat cfg →
      detect cfg infer st pcm = (st, Except.error "not enough samples")) ∧
    ((∃ win ∈ goWindows (windowSizeNat cfg) pcm,
        ∀ q, infer win ≠ Except.ok q) →
      ∃ e, (detect cfg infer st pcm).2 = Except.error e) ∧
    (∀ e, (detect cfg infer st pcm).2 = Except.error e →
      ∀ segs, (detect cfg infer st pcm).2 ≠ Except.ok segs) := by
  refine ⟨?_, ?_, ?_⟩
  · intro h
    rw [detect, if_pos h]
  · intro h
    by_cases hlen : pcm.length < windowSizeNat cfg
    · exact ⟨"not enough samples", by rw [detect, if_pos hlen]⟩
    · rcases runWindows_error_of_fail cfg infer
        (goWindows (windowSizeNat cfg) pcm) ⟨st, []⟩ h with ⟨e, he⟩
      refine ⟨e, ?_⟩
      rw [detect, if_neg hlen]
      dsimp only
      rw [he]
  · intro e he segs hok
    rw [he] at hok
    exact Except.noConfusion hok

/-- An 8 kHz configuration for the C9 witness. -/
def c9WitnessCfg : DetectorConfig := ⟨"model.onnx", 8000, 1/2, 7/20, 0, 250, 0⟩

/-- A two-window buffer for the C9 witness (only its first window is
processed). -/
def c9Pcm : List ℚ := List.replicate 512 0

/-- Witness for C9: with an always-failing adapter on a buffer with one
processed window, `Detect` returns an error. -/
theorem c9_adapter_failure_witness :
    (∃ win ∈ goWindows (windowSizeNat c9WitnessCfg) c9Pcm,
      ∀ q, (fun _ => (Except.error "boom" : Except String ℚ)) win ≠
        Except.ok q) ∧
    ∃ e, (detect c9WitnessCfg (fun _ => Except.error "boom") resetState
      c9Pcm).2 = Except.error e := by
  have hwn : windowSizeNat c9WitnessCfg = 256 := by
    norm_num [windowSizeNat, c9WitnessCfg]
  have hg : goWindows (windowSizeNat c9WitnessCfg) c9Pcm =
      [c9Pcm.take 256] := by
    rw [goWindows, goWindowsAux_eq (windowSizeNat c9WitnessCfg)
      (by rw [hwn]; norm_num) c9Pcm.length c9Pcm le_rfl, hwn]
    norm_num [c9Pcm, List.range_succ]
  have hmem : ∃ win ∈ goWindows (windowSizeNat c9WitnessCfg) c9Pcm,
      ∀ q, (fun _ => (Except.error "boom" : Except String ℚ)) win ≠
        Except.ok q := by
    refine ⟨c9Pcm.take 256, ?_, fun q h => Except.noConfusion h⟩
    rw [hg]
    exact List.mem_singleton.mpr rfl
  exact ⟨hmem, (c9_adapter_failure c9WitnessCfg
    (fun _ => Except.error "boom") resetState c9Pcm).2.1 hmem⟩

/-!  ## C7: padding symmetry  -/

/-- How a padding of `P` ms transforms one segment of the zero-padding
run: the start moves `P/1000` seconds earlier (clamped at 0) and a
non-zero (closed) end moves `P/1000` seconds later. -/
def padSegment (P : ℤ) (s : Segment) : Segment :=
  ⟨max 0 (s.speechStartAt - (P : ℚ)/1000),
   if s.speechEndAt = 0 then 0 else s.speechEndAt + (P : ℚ)/1000⟩

/-- Zero padding yields zero padding samples. -/
theorem speechPadSamples_zero (cfg : DetectorConfig) :
    speechPadSamples { cfg with speechPadMs := 0 } = 0 := by
  unfold speechPadSamples
  norm_num

/-- At the supported sample rates the integer padding-sample count divides
back exactly to `P/1000` seconds. -/
theorem speechPadSamples_div (cfg : DetectorConfig) (P : ℤ)
    (hrate : cfg.sampleRate = 8000 ∨ cfg.sampleRate = 16000) :
    ((speechPadSamples { cfg with speechPadMs := P } : ℤ) : ℚ) /
      (cfg.sampleRate : ℚ) = (P : ℚ) / 1000 := by
  unfold speechPadSamples
  dsimp only
  rcases hrate with h | h <;> rw [h]
  · rw [show P * (8000:ℤ) = P * 8 * 1000 by ring,
      Int.mul_tdiv_cancel _ (by norm_num)]
    push_cast
    rw [div_eq_div_iff (by norm_num) (by norm_num)]
    ring
  · rw [show P * (16000:ℤ) = P * 16 * 1000 by ring,
      Int.mul_tdiv_cancel _ (by norm_num)]
    push_cast
    rw [div_eq_div_iff (by norm_num) (by norm_num)]
    ring

/-- The padded trigger start is the clamped shift of the unpadded one,
for any window at least one window size into the stream. -/
theorem speechStartTime_pad (cfg : DetectorConfig) (P : ℤ) (curr : ℤ)
    (hrate : cfg.sampleRate = 8000 ∨ cfg.sampleRate = 16000)
    (hc : windowSizeOf cfg ≤ curr) :
    speechStartTime { cfg with speechPadMs := P } curr =
      max 0 (speechStartTime { cfg with speechPadMs := 0 } curr -
        (P : ℚ)/1000) := by
  have hr : (0:ℚ) < (cfg.sampleRate : ℚ) := by
    rcases hrate with h | h <;> rw [h] <;> norm_num
  unfold speechStartTime
  dsimp only
  rw [speechPadSamples_zero]
  have hwp : windowSizeOf { cfg with speechPadMs := P } = windowSizeOf cfg :=
    rfl
  have hw0 : windowSizeOf { cfg with speechPadMs := 0 } = windowSizeOf cfg :=
    rfl
  rw [hwp, hw0]
  have hraw0 : (0:ℚ) ≤ ((curr - windowSizeOf cfg - 0 : ℤ) : ℚ) /
      (cfg.sampleRate : ℚ) := by
    apply div_nonneg _ (le_of_lt hr)
    have : (0:ℤ) ≤ curr - windowSizeOf cfg - 0 := by omega
    exact_mod_cast this
  rw [if_neg (not_lt.mpr hraw0)]
  have hsplit : ((curr - windowSizeOf cfg -
        speechPadSamples { cfg with speechPadMs := P } : ℤ) : ℚ) /
        (cfg.sampleRate : ℚ) =
      ((curr - windowSizeOf cfg - 0 : ℤ) : ℚ) / (cfg.sampleRate : ℚ) -
        (P : ℚ)/1000 := by
    rw [← speechPadSamples_div cfg P hrate]
    push_cast
    ring
  rw [hsplit]
  split_ifs with h0
  · exact (max_eq_left (le_of_lt h0)).symm
  · exact (max_eq_right (not_lt.mp h0)).symm

/-- The padded close end is the exact shift of the unpadded one. -/
theorem speechEndTime_pad (cfg : DetectorConfig) (P : ℤ) (te : ℤ)
    (hrate : cfg.sampleRate = 8000 ∨ cfg.sampleRate = 16000) :
    speechEndTime { cfg with speechPadMs := P } te =
      speechEndTime { cfg with speechPadMs := 0 } te + (P : ℚ)/1000 := by
  unfold speechEndTime
  dsimp only
  rw [speechPadSamples_zero, ← speechPadSamples_div cfg P hrate]
  push_cast
  ring

/-- The trigger block of the padded run, on the pointwise-padded segment
list, produces the same state and the pointwise-padded segments of the
zero-padding run. -/
theorem triggerStep_pad (cfg : DetectorConfig) (P : ℤ) (p : ℚ)
    (st : DetState) (segs0 : List Segment)
    (hrate : cfg.sampleRate = 8000 ∨ cfg.sampleRate = 16000)
    (hws : windowSizeOf cfg ≤ st.currSample) :
    triggerStep { cfg with speechPadMs := P } p st
        (segs0.map (padSegment P)) =
      ((triggerStep { cfg with speechPadMs := 0 } p st segs0).1,
       (triggerStep { cfg with speechPadMs := 0 } p st segs0).2.map
         (padSegment P)) := by
  have hseg : padSegment P
      (⟨speechStartTime { cfg with speechPadMs := 0 } st.currSample, 0⟩ :
        Segment) =
      ⟨speechStartTime { cfg with speechPadMs := P } st.currSample, 0⟩ := by
    unfold padSegment
    rw [speechStartTime_pad cfg P st.currSample hrate hws]
    simp
  unfold triggerStep
  dsimp only
  split_ifs with hcond
  · simp [List.map_append, hseg]
  · rfl

/-- The close block of the padded run, on the pointwise-padded segment
list, produces the same state and error and the pointwise-padded segments
of the zero-padding run. -/
theorem closeStep_pad (cfg : DetectorConfig) (P : ℤ) (p : ℚ)
    (st : DetState) (segs0 : List Segment)
    (hrate : cfg.sampleRate = 8000 ∨ cfg.sampleRate = 16000)
    (hte1 : 0 < (if st.tempEnd = 0 then st.currSample else st.tempEnd)) :
    closeStep { cfg with speechPadMs := P } p st
        (segs0.map (padSegment P)) =
      (((closeStep { cfg with speechPadMs := 0 } p st segs0).1.1,
        (closeStep { cfg with speechPadMs := 0 } p st segs0).1.2.map
          (padSegment P)),
       (closeStep { cfg with speechPadMs := 0 } p st segs0).2) := by
  have hr0 : (0:ℤ) < cfg.sampleRate := by
    rcases hrate with h | h <;> rw [h] <;> norm_num
  have he0pos : 0 < speechEndTime { cfg with speechPadMs := 0 }
      (if st.tempEnd = 0 then st.currSample else st.tempEnd) :=
    speechEndTime_pos { cfg with speechPadMs := 0 } hr0 (le_refl 0) _ hte1
  unfold closeStep
  dsimp only
  rw [show minSilenceSamples { cfg with speechPadMs := P } =
    minSilenceSamples { cfg with speechPadMs := 0 } from rfl]
  by_cases h1 : p < cfg.negativeThreshold ∧ st.triggered = true
  · rw [if_pos h1, if_pos h1]
    by_cases h2 : st.currSample -
        (if st.tempEnd = 0 then st.currSample else st.tempEnd) <
        minSilenceSamples { cfg with speechPadMs := 0 }
    · rw [if_pos h2, if_pos h2]
    · rw [if_neg h2, if_neg h2]
      rcases hl : segs0.getLast? with _ | last0
      · have hlP : (segs0.map (padSegment P)).getLast? = none := by
          rw [List.getLast?_map, hl]
          rfl
        simp only [hlP, hl]
      · have hlP : (segs0.map (padSegment P)).getLast? =
            some (padSegment P last0) := by
          rw [List.getLast?_map, hl]
          rfl
        simp only [hlP, hl]
        have hlastEq : ({ padSegment P last0 with
            speechEndAt := speechEndTime { cfg with speechPadMs := P }
              (if st.tempEnd = 0 then st.currSample else st.tempEnd) } :
              Segment) =
            padSegment P { last0 with
              speechEndAt := speechEndTime { cfg with speechPadMs := 0 }
                (if st.tempEnd = 0 then st.currSample else st.tempEnd) } := by
          unfold padSegment
          dsimp only
          rw [if_neg (ne_of_gt he0pos),
            speechEndTime_pad cfg P _ hrate]
        rw [hlastEq, List.map_append, List.map_dropLast]
        rfl
  · rw [if_neg h1, if_neg h1]

/-- The re-arm block does not depend on the padding field. -/
theorem rearmStep_pad (cfg : DetectorConfig) (P : ℤ) (p : ℚ)
    (st : DetState) :
    rearmStep { cfg with speechPadMs := P } p st =
      rearmStep { cfg with speechPadMs := 0 } p st := rfl

/-- The trigger block never changes `currSample`. -/
theorem triggerStep_currSample (cfg : DetectorConfig) (p : ℚ) (st : DetState)
    (segs : List Segment) :
    (triggerStep cfg p st segs).1.currSample = st.currSample := by
  unfold triggerStep
  split_ifs <;> rfl

/-- The trigger block never changes `tempEnd`. -/
theorem triggerStep_tempEnd (cfg : DetectorConfig) (p : ℚ) (st : DetState)
    (segs : List Segment) :
    (triggerStep cfg p st segs).1.tempEnd = st.tempEnd := by
  unfold triggerStep
  split_ifs <;> rfl

/-- The simulation relation between the padded run and the zero-padding
run: identical detector state, pointwise-padded segment list, and the
candidate invariant on the zero-padding side. -/
def PadRel (cfg : DetectorConfig) (P : ℤ) (aP a0 : LoopAcc) : Prop :=
  aP.st = a0.st ∧ aP.segs = a0.segs.map (padSegment P) ∧ InvC cfg a0.st

/-- One window preserves the padding simulation, with identical error
outcomes. -/
theorem stepWindow_pad (cfg : DetectorConfig) (P : ℤ) (p : ℚ)
    (hrate : cfg.sampleRate = 8000 ∨ cfg.sampleRate = 16000)
    (aP a0 : LoopAcc) (h : PadRel cfg P aP a0) :
    (stepWindow { cfg with speechPadMs := P } aP p).2 =
      (stepWindow { cfg with speechPadMs := 0 } a0 p).2 ∧
    PadRel cfg P (stepWindow { cfg with speechPadMs := P } aP p).1
      (stepWindow { cfg with speechPadMs := 0 } a0 p).1 := by
  obtain ⟨hst, hsegs, hcs, hteI, htcI⟩ := h
  have hw : 0 < windowSizeOf cfg := windowSizeOf_pos cfg
  rw [stepWindow_eq, stepWindow_eq, hst, hsegs]
  rw [show windowSizeOf { cfg with speechPadMs := P } = windowSizeOf cfg
        from rfl,
      show windowSizeOf { cfg with speechPadMs := 0 } = windowSizeOf cfg
        from rfl]
  rw [rearmStep_pad cfg P p]
  have hws2 : windowSizeOf cfg ≤
      (rearmStep { cfg with speechPadMs := 0 } p
        { a0.st with
            currSample := a0.st.currSample + windowSizeOf cfg }).currSample := by
    rw [rearmStep_currSample]
    dsimp only
    omega
  have hte2 : (rearmStep { cfg with speechPadMs := 0 } p
        { a0.st with
            currSample := a0.st.currSample + windowSizeOf cfg }).tempEnd = 0 ∨
      windowSizeOf cfg ≤
        (rearmStep { cfg with speechPadMs := 0 } p
          { a0.st with
              currSample := a0.st.currSample + windowSizeOf cfg }).tempEnd := by
    rcases rearmStep_cases { cfg with speechPadMs := 0 } p
        { a0.st with
            currSample := a0.st.currSample + windowSizeOf cfg } with
        ⟨-, -, hre⟩ | ⟨-, hre⟩ <;> rw [hre]
    · exact Or.inl rfl
    · exact hteI
  have htc2 : (rearmStep { cfg with speechPadMs := 0 } p
        { a0.st with
            currSample := a0.st.currSample + windowSizeOf cfg }).tempEnd ≤
      (rearmStep { cfg with speechPadMs := 0 } p
        { a0.st with
            currSample := a0.st.currSample + windowSizeOf cfg }).currSample := by
    rw [rearmStep_currSample]
    rcases rearmStep_cases { cfg with speechPadMs := 0 } p
        { a0.st with
            currSample := a0.st.currSample + windowSizeOf cfg } with
        ⟨-, -, hre⟩ | ⟨-, hre⟩ <;> rw [hre] <;> dsimp only <;> omega
  rw [triggerStep_pad cfg P p _ a0.segs hrate hws2]
  have hte1 : 0 < (if (triggerStep { cfg with speechPadMs := 0 } p
        (rearmStep { cfg with speechPadMs := 0 } p
          { a0.st with
              currSample := a0.st.currSample + windowSizeOf cfg })
        a0.segs).1.tempEnd = 0 then
      (triggerStep { cfg with speechPadMs := 0 } p
        (rearmStep { cfg with speechPadMs := 0 } p
          { a0.st with
              currSample := a0.st.currSample + windowSizeOf cfg })
        a0.segs).1.currSample
    else
      (triggerStep { cfg with speechPadMs := 0 } p
        (rearmStep { cfg with speechPadMs := 0 } p
          { a0.st with
              currSample := a0.st.currSample + windowSizeOf cfg })
        a0.segs).1.tempEnd) := by
    rw [triggerStep_tempEnd, triggerStep_currSample]
    split_ifs with h0
    · omega
    · rcases hte2 with h | h
      · exact absurd h h0
      · omega
  rw [closeStep_pad cfg P p _ _ hrate hte1]
  refine ⟨rfl, rfl, rfl, ?_⟩
  exact closeTrigger_invC { cfg with speechPadMs := 0 } p _ a0.segs hte2
    htc2 hws2

/-- The loop preserves the padding simulation, with identical error
outcomes. -/
theorem runProbs_pad (cfg : DetectorConfig) (P : ℤ) (probs : List ℚ)
    (hrate : cfg.sampleRate = 8000 ∨ cfg.sampleRate = 16000)
    (aP a0 : LoopAcc) (h : PadRel cfg P aP a0) :
    (runProbs { cfg with speechPadMs := P } aP probs).2 =
      (runProbs { cfg with speechPadMs := 0 } a0 probs).2 ∧
    PadRel cfg P (runProbs { cfg with speechPadMs := P } aP probs).1
      (runProbs { cfg with speechPadMs := 0 } a0 probs).1 := by
  induction probs generalizing aP a0 with
  | nil => exact ⟨rfl, h⟩
  | cons p ps ih =>
    have hs := stepWindow_pad cfg P p hrate aP a0 h
    rw [runProbs_cons, runProbs_cons, hs.1]
    split_ifs with he
    · exact ih _ _ hs.2
    · exact ⟨rfl, hs.2⟩

/-- C7: on every probability sequence from the reset state, running with
`speechPadMs = P` instead of `speechPadMs = 0` leaves every trigger/close
decision unchanged (identical final state and error outcome, same emitted
segment count before filtering), and transforms each emitted segment
pointwise: the start becomes `max 0 (start - P/1000)` — hence exactly
`start - P/1000` whenever no clamping at 0 is in effect — and each closed
segment's end becomes exactly `end + P/1000` seconds. -/
theorem c7_padding_symmetry (cfg : DetectorConfig) (P : ℤ) (probs : List ℚ)
    (hrate : cfg.sampleRate = 8000 ∨ cfg.sampleRate = 16000) :
    (runProbs { cfg with speechPadMs := P } ⟨resetState, []⟩ probs).1.st =
      (runProbs { cfg with speechPadMs := 0 } ⟨resetState, []⟩ probs).1.st ∧
    (runProbs { cfg with speechPadMs := P } ⟨resetState, []⟩ probs).2 =
      (runProbs { cfg with speechPadMs := 0 } ⟨resetState, []⟩ probs).2 ∧
    (runProbs { cfg with speechPadMs := P } ⟨resetState, []⟩ probs).1.segs =
      (runProbs { cfg with speechPadMs := 0 } ⟨resetState, []⟩
        probs).1.segs.map (padSegment P) ∧
    (runProbs { cfg with speechPadMs := P } ⟨resetState, []⟩
        probs).1.segs.length =
      (runProbs { cfg with speechPadMs := 0 } ⟨resetState, []⟩
        probs).1.segs.length ∧
    (∀ s : Segment, (P : ℚ)/1000 ≤ s.speechStartAt →
      padSegment P s = ⟨s.speechStartAt - (P : ℚ)/1000,
        if s.speechEndAt = 0 then 0 else s.speechEndAt + (P : ℚ)/1000⟩) := by
  have hrun := runProbs_pad cfg P probs hrate ⟨resetState, []⟩
    ⟨resetState, []⟩ ⟨rfl, rfl, le_refl 0, Or.inl rfl, le_refl 0⟩
  obtain ⟨herr, hstr, hsegr, -⟩ := hrun
  refine ⟨hstr, herr, hsegr, by rw [hsegr, List.length_map], ?_⟩
  intro s hs
  unfold padSegment
  rw [max_eq_right (by linarith)]

/-- An 8 kHz configuration for the C7 witness. -/
def c7WitnessCfg : DetectorConfig := ⟨"model.onnx", 8000, 1/2, 7/20, 0, 250, 0⟩

/-- Witness for C7 with a 10 ms padding on a concrete probability
sequence. -/
theorem c7_padding_symmetry_witness :
    (c7WitnessCfg.sampleRate = 8000 ∨ c7WitnessCfg.sampleRate = 16000) ∧
    ((runProbs { c7WitnessCfg with speechPadMs := 10 } ⟨resetState, []⟩
        [1/5, 3/5, 1/5]).1.st =
      (runProbs { c7WitnessCfg with speechPadMs := 0 } ⟨resetState, []⟩
        [1/5, 3/5, 1/5]).1.st ∧
    (runProbs { c7WitnessCfg with speechPadMs := 10 } ⟨resetState, []⟩
        [1/5, 3/5, 1/5]).2 =
      (runProbs { c7WitnessCfg with speechPadMs := 0 } ⟨resetState, []⟩
        [1/5, 3/5, 1/5]).2 ∧
    (runProbs { c7WitnessCfg with speechPadMs := 10 } ⟨resetState, []⟩
        [1/5, 3/5, 1/5]).1.segs =
      (runProbs { c7WitnessCfg with speechPadMs := 0 } ⟨resetState, []⟩
        [1/5, 3/5, 1/5]).1.segs.map (padSegment 10) ∧
    (runProbs { c7WitnessCfg with speechPadMs := 10 } ⟨resetState, []⟩
        [1/5, 3/5, 1/5]).1.segs.length =
      (runProbs { c7WitnessCfg with speechPadMs := 0 } ⟨resetState, []⟩
        [1/5, 3/5, 1/5]).1.segs.length ∧
    (∀ s : Segment, ((10:ℤ) : ℚ)/1000 ≤ s.speechStartAt →
      padSegment 10 s = ⟨s.speechStartAt - ((10:ℤ) : ℚ)/1000,
        if s.speechEndAt = 0 then 0
        else s.speechEndAt + ((10:ℤ) : ℚ)/1000⟩)) :=
  ⟨Or.inl rfl,
   c7_padding_symmetry c7WitnessCfg 10 [1/5, 3/5, 1/5] (Or.inl rfl)⟩

/-!  ## C1: timestamps are relative to the last `Reset`, not to each call  -/

/-- How advancing the stream position by `N` samples (the samples consumed
by earlier `Detect` calls since the last `Reset`) transforms one emitted
segment: both timestamps move `N / sampleRate` seconds later (a zero end
stays the open marker). -/
def shiftSegment (cfg : DetectorConfig) (N : ℤ) (s : Segment) : Segment :=
  ⟨s.speechStartAt + (N : ℚ) / (cfg.sampleRate : ℚ),
   if s.speechEndAt = 0 then 0
   else s.speechEndAt + (N : ℚ) / (cfg.sampleRate : ℚ)⟩

/-- The state correspondence between a run whose stream position is `N`
samples further along and the run from the reset position. -/
def ShiftState (N : ℤ) (st0 stN : DetState) : Prop :=
  stN.currSample = st0.currSample + N ∧
  stN.triggered = st0.triggered ∧
  (st0.tempEnd = 0 → stN.tempEnd = 0) ∧
  (st0.tempEnd ≠ 0 → stN.tempEnd = st0.tempEnd + N)

/-- With zero configured padding there are zero padding samples. -/
theorem speechPadSamples_of_zero (cfg : DetectorConfig)
    (h : cfg.speechPadMs = 0) : speechPadSamples cfg = 0 := by
  unfold speechPadSamples
  rw [h]
  norm_num

/-- With zero padding, a trigger `N` samples further along starts exactly
`N / sampleRate` seconds later (no clamping on either side). -/
theorem speechStartTime_shift (cfg : DetectorConfig) (N curr : ℤ)
    (hpad0 : speechPadSamples cfg = 0) (hrate : 0 < cfg.sampleRate)
    (hc : windowSizeOf cfg ≤ curr) (hN : 0 ≤ N) :
    speechStartTime cfg (curr + N) =
      speechStartTime cfg curr + (N : ℚ) / (cfg.sampleRate : ℚ) := by
  have hrq : (0:ℚ) < (cfg.sampleRate : ℚ) := by exact_mod_cast hrate
  unfold speechStartTime
  dsimp only
  rw [hpad0]
  have hsplit : ((curr + N - windowSizeOf cfg - 0 : ℤ) : ℚ) =
      ((curr - windowSizeOf cfg - 0 : ℤ) : ℚ) + (N : ℚ) := by
    push_cast
    ring
  rw [hsplit, add_div]
  have h0 : (0:ℚ) ≤ ((curr - windowSizeOf cfg - 0 : ℤ) : ℚ) /
      (cfg.sampleRate : ℚ) := by
    apply div_nonneg _ (le_of_lt hrq)
    have : (0:ℤ) ≤ curr - windowSizeOf cfg - 0 := by omega
    exact_mod_cast this
  have hNq : (0:ℚ) ≤ (N : ℚ) / (cfg.sampleRate : ℚ) := by
    apply div_nonneg _ (le_of_lt hrq)
    exact_mod_cast hN
  rw [if_neg (not_lt.mpr h0), if_neg (not_lt.mpr (by linarith))]

/-- A close whose candidate is `N` samples further along ends exactly
`N / sampleRate` seconds later. -/
theorem speechEndTime_shift (cfg : DetectorConfig) (N te : ℤ) :
    speechEndTime cfg (te + N) =
      speechEndTime cfg te + (N : ℚ) / (cfg.sampleRate : ℚ) := by
  unfold speechEndTime
  have hsplit : ((te + N + speechPadSamples cfg : ℤ) : ℚ) =
      ((te + speechPadSamples cfg : ℤ) : ℚ) + (N : ℚ) := by
    push_cast
    ring
  rw [hsplit, add_div]

/-- The re-arm block preserves the stream-shift correspondence. -/
theorem rearmStep_shift (cfg : DetectorConfig) (p : ℚ) (N : ℤ)
    (st0 stN : DetState) (h : ShiftState N st0 stN)
    (hpos : st0.tempEnd ≠ 0 → 0 < st0.tempEnd) (hN : 0 ≤ N) :
    ShiftState N (rearmStep cfg p st0) (rearmStep cfg p stN) := by
  obtain ⟨h1, h2, h3, h4⟩ := h
  unfold rearmStep
  by_cases hp : cfg.threshold ≤ p
  · by_cases h0 : st0.tempEnd = 0
    · rw [if_neg (fun hh => hh.2 h0), if_neg (fun hh => hh.2 (h3 h0))]
      exact ⟨h1, h2, h3, h4⟩
    · have hNne : stN.tempEnd ≠ 0 := by
        rw [h4 h0]
        have := hpos h0
        omega
      rw [if_pos (show cfg.threshold ≤ p ∧ st0.tempEnd ≠ 0 from ⟨hp, h0⟩),
        if_pos (show cfg.threshold ≤ p ∧ stN.tempEnd ≠ 0 from ⟨hp, hNne⟩)]
      exact ⟨h1, h2, fun _ => rfl, fun hc => absurd rfl hc⟩
  · rw [if_neg (fun hh => hp hh.1), if_neg (fun hh => hp hh.1)]
    exact ⟨h1, h2, h3, h4⟩

/-- The trigger block preserves the stream-shift correspondence, shifting
the newly opened segment by `N / sampleRate` seconds. -/
theorem triggerStep_shift (cfg : DetectorConfig) (p : ℚ) (N : ℤ)
    (st0 stN : DetState) (segs0 : List Segment) (h : ShiftState N st0 stN)
    (hpad0 : speechPadSamples cfg = 0) (hrate : 0 < cfg.sampleRate)
    (hc : windowSizeOf cfg ≤ st0.currSample) (hN : 0 ≤ N) :
    ShiftState N (triggerStep cfg p st0 segs0).1
      (triggerStep cfg p stN (segs0.map (shiftSegment cfg N))).1 ∧
    (triggerStep cfg p stN (segs0.map (shiftSegment cfg N))).2 =
      (triggerStep cfg p st0 segs0).2.map (shiftSegment cfg N) := by
  obtain ⟨h1, h2, h3, h4⟩ := h
  unfold triggerStep
  by_cases hf : cfg.threshold ≤ p ∧ st0.triggered = false
  · rw [if_pos hf, if_pos ⟨hf.1, h2.trans hf.2⟩]
    dsimp only
    refine ⟨⟨h1, rfl, h3, h4⟩, ?_⟩
    have hseg : shiftSegment cfg N
        (⟨speechStartTime cfg st0.currSample, 0⟩ : Segment) =
        ⟨speechStartTime cfg stN.currSample, 0⟩ := by
      unfold shiftSegment
      rw [h1, speechStartTime_shift cfg N st0.currSample hpad0 hrate hc hN]
      simp
    simp [List.map_append, hseg]
  · rw [if_neg hf, if_neg (fun hh => hf ⟨hh.1, h2.symm.trans hh.2⟩)]
    exact ⟨⟨h1, h2, h3, h4⟩, rfl⟩

/-- The close block preserves the stream-shift correspondence, with
identical decisions and error outcome, shifting a closed end by
`N / sampleRate` seconds. -/
theorem closeStep_shift (cfg : DetectorConfig) (p : ℚ) (N : ℤ)
    (st0 stN : DetState) (segs0 : List Segment) (h : ShiftState N st0 stN)
    (hN : 0 ≤ N) (hrate : 0 < cfg.sampleRate) (hpad : 0 ≤ cfg.speechPadMs)
    (hte : st0.tempEnd = 0 ∨ windowSizeOf cfg ≤ st0.tempEnd)
    (hcs : windowSizeOf cfg ≤ st0.currSample) :
    ShiftState N (closeStep cfg p st0 segs0).1.1
      (closeStep cfg p stN (segs0.map (shiftSegment cfg N))).1.1 ∧
    (closeStep cfg p stN (segs0.map (shiftSegment cfg N))).1.2 =
      (closeStep cfg p st0 segs0).1.2.map (shiftSegment cfg N) ∧
    (closeStep cfg p stN (segs0.map (shiftSegment cfg N))).2 =
      (closeStep cfg p st0 segs0).2 := by
  obtain ⟨h1, h2, h3, h4⟩ := h
  have hw := windowSizeOf_pos cfg
  have hte10 : 0 < (if st0.tempEnd = 0 then st0.currSample else st0.tempEnd) := by
    split_ifs with h0
    · omega
    · rcases hte with hh | hh
      · exact absurd hh h0
      · omega
  have hte1N : (if stN.tempEnd = 0 then stN.currSample else stN.tempEnd) =
      (if st0.tempEnd = 0 then st0.currSample else st0.tempEnd) + N := by
    by_cases h0 : st0.tempEnd = 0
    · rw [if_pos h0, if_pos (h3 h0), h1]
    · have h4e := h4 h0
      have hne : stN.tempEnd ≠ 0 := by
        rw [h4e]
        rcases hte with hh | hh
        · exact absurd hh h0
        · omega
      rw [if_neg h0, if_neg hne, h4e]
  unfold closeStep
  by_cases hcl : p < cfg.negativeThreshold ∧ st0.triggered = true
  · rw [if_pos hcl,
      if_pos (show p < cfg.negativeThreshold ∧ stN.triggered = true from
        ⟨hcl.1, h2.trans hcl.2⟩)]
    dsimp only
    by_cases hsil : st0.currSample -
        (if st0.tempEnd = 0 then st0.currSample else st0.tempEnd) <
        minSilenceSamples cfg
    · have hsilN : stN.currSample -
          (if stN.tempEnd = 0 then stN.currSample else stN.tempEnd) <
          minSilenceSamples cfg := by
        rw [hte1N, h1]
        omega
      rw [if_pos hsil, if_pos hsilN]
      refine ⟨⟨h1, h2, ?_, ?_⟩, rfl, rfl⟩
      · intro hz
        exact absurd hz (ne_of_gt hte10)
      · intro _
        exact hte1N
    · have hsilN : ¬(stN.currSample -
          (if stN.tempEnd = 0 then stN.currSample else stN.tempEnd) <
          minSilenceSamples cfg) := by
        rw [hte1N, h1]
        omega
      rw [if_neg hsil, if_neg hsilN]
      rcases hl : segs0.getLast? with _ | last0
      · have hlN : (segs0.map (shiftSegment cfg N)).getLast? = none := by
          rw [List.getLast?_map, hl]
          rfl
        simp only [hl, hlN]
        exact ⟨⟨h1, rfl, fun _ => rfl, fun hc => absurd rfl hc⟩,
          by trivial, by trivial⟩
      · have hlN : (segs0.map (shiftSegment cfg N)).getLast? =
            some (shiftSegment cfg N last0) := by
          rw [List.getLast?_map, hl]
          rfl
        simp only [hl, hlN]
        refine ⟨⟨h1, rfl, fun _ => rfl, fun hc => absurd rfl hc⟩, ?_,
          by trivial⟩
        have he0 : speechEndTime cfg
            (if st0.tempEnd = 0 then st0.currSample else st0.tempEnd) ≠ 0 :=
          ne_of_gt (speechEndTime_pos cfg hrate hpad _ hte10)
        have hlastEq : ({ shiftSegment cfg N last0 with
            speechEndAt := speechEndTime cfg
              (if stN.tempEnd = 0 then stN.currSample else stN.tempEnd) } :
              Segment) =
            shiftSegment cfg N { last0 with
              speechEndAt := speechEndTime cfg
                (if st0.tempEnd = 0 then st0.currSample else st0.tempEnd) } := by
          unfold shiftSegment
          dsimp only
          rw [hte1N, speechEndTime_shift, if_neg he0]
        rw [hlastEq, List.map_append, List.map_dropLast]
        simp
  · rw [if_neg hcl,
      if_neg (show ¬(p < cfg.negativeThreshold ∧ stN.triggered = true) from
        fun hh => hcl ⟨hh.1, h2.symm.trans hh.2⟩)]
    exact ⟨⟨h1, h2, h3, h4⟩, rfl, rfl⟩

/-- The simulation relation between a run starting `N` samples into the
stream and the run starting at the reset position: shifted state,
pointwise-shifted segments, candidate invariant on the reset-side run. -/
def ShiftRel (cfg : DetectorConfig) (N : ℤ) (aN a0 : LoopAcc) : Prop :=
  ShiftState N a0.st aN.st ∧
  aN.segs = a0.segs.map (shiftSegment cfg N) ∧ InvC cfg a0.st

/-- One window preserves the stream-shift simulation (zero padding), with
identical error outcomes. -/
theorem stepWindow_shift (cfg : DetectorConfig) (N : ℤ) (p : ℚ)
    (hpad0 : cfg.speechPadMs = 0) (hrate : 0 < cfg.sampleRate) (hN : 0 ≤ N)
    (aN a0 : LoopAcc) (h : ShiftRel cfg N aN a0) :
    ShiftRel cfg N (stepWindow cfg aN p).1 (stepWindow cfg a0 p).1 ∧
    (stepWindow cfg aN p).2 = (stepWindow cfg a0 p).2 := by
  obtain ⟨⟨h1, h2, h3, h4⟩, hsegs, hcs0, hte0, htc0⟩ := h
  have hw := windowSizeOf_pos cfg
  have hps0 : speechPadSamples cfg = 0 := speechPadSamples_of_zero cfg hpad0
  rw [stepWindow_eq, stepWindow_eq, hsegs]
  have hrel1 : ShiftState N
      { a0.st with currSample := a0.st.currSample + windowSizeOf cfg }
      { aN.st with currSample := aN.st.currSample + windowSizeOf cfg } :=
    ⟨by dsimp only; omega, h2, h3, h4⟩
  have hpos1 : ({ a0.st with
      currSample := a0.st.currSample + windowSizeOf cfg } :
        DetState).tempEnd ≠ 0 →
      0 < ({ a0.st with
        currSample := a0.st.currSample + windowSizeOf cfg } :
          DetState).tempEnd := by
    dsimp only
    intro hz
    rcases hte0 with hh | hh
    · exact absurd hh hz
    · omega
  have hrel2 := rearmStep_shift cfg p N _ _ hrel1 hpos1 hN
  have hte2 : (rearmStep cfg p
        { a0.st with
            currSample := a0.st.currSample + windowSizeOf cfg }).tempEnd = 0 ∨
      windowSizeOf cfg ≤
        (rearmStep cfg p
          { a0.st with
              currSample := a0.st.currSample + windowSizeOf cfg }).tempEnd := by
    rcases rearmStep_cases cfg p
        { a0.st with currSample := a0.st.currSample + windowSizeOf cfg } with
        ⟨-, -, hre⟩ | ⟨-, hre⟩ <;> rw [hre]
    · exact Or.inl rfl
    · exact hte0
  have hcs2 : windowSizeOf cfg ≤
      (rearmStep cfg p
        { a0.st with
            currSample := a0.st.currSample + windowSizeOf cfg }).currSample := by
    rw [rearmStep_currSample]
    dsimp only
    omega
  have htc2 : (rearmStep cfg p
        { a0.st with
            currSample := a0.st.currSample + windowSizeOf cfg }).tempEnd ≤
      (rearmStep cfg p
        { a0.st with
            currSample := a0.st.currSample + windowSizeOf cfg }).currSample := by
    rw [rearmStep_currSample]
    rcases rearmStep_cases cfg p
        { a0.st with currSample := a0.st.currSample + windowSizeOf cfg } with
        ⟨-, -, hre⟩ | ⟨-, hre⟩ <;> rw [hre] <;> dsimp only <;> omega
  have htr := triggerStep_shift cfg p N _ _ a0.segs hrel2 hps0 hrate hcs2 hN
  rw [htr.2]
  have hteT : (triggerStep cfg p
        (rearmStep cfg p
          { a0.st with
              currSample := a0.st.currSample + windowSizeOf cfg })
        a0.segs).1.tempEnd = 0 ∨
      windowSizeOf cfg ≤
        (triggerStep cfg p
          (rearmStep cfg p
            { a0.st with
                currSample := a0.st.currSample + windowSizeOf cfg })
          a0.segs).1.tempEnd := by
    rw [triggerStep_tempEnd]
    exact hte2
  have hcsT : windowSizeOf cfg ≤
      (triggerStep cfg p
        (rearmStep cfg p
          { a0.st with
              currSample := a0.st.currSample + windowSizeOf cfg })
        a0.segs).1.currSample := by
    rw [triggerStep_currSample]
    exact hcs2
  have hcl := closeStep_shift cfg p N
    (triggerStep cfg p
      (rearmStep cfg p
        { a0.st with currSample := a0.st.currSample + windowSizeOf cfg })
      a0.segs).1
    (triggerStep cfg p
      (rearmStep cfg p
        { aN.st with currSample := aN.st.currSample + windowSizeOf cfg })
      (a0.segs.map (shiftSegment cfg N))).1
    (triggerStep cfg p
      (rearmStep cfg p
        { a0.st with currSample := a0.st.currSample + windowSizeOf cfg })
      a0.segs).2
    htr.1 hN hrate (le_of_eq hpad0.symm) hteT hcsT
  exact ⟨⟨hcl.1, hcl.2.1,
    closeTrigger_invC cfg p _ a0.segs hte2 htc2 hcs2⟩, hcl.2.2⟩

/-- The loop preserves the stream-shift simulation, with identical error
outcomes. -/
theorem runProbs_shift (cfg : DetectorConfig) (N : ℤ) (probs : List ℚ)
    (hpad0 : cfg.speechPadMs = 0) (hrate : 0 < cfg.sampleRate) (hN : 0 ≤ N)
    (aN a0 : LoopAcc) (h : ShiftRel cfg N aN a0) :
    ShiftRel cfg N (runProbs cfg aN probs).1 (runProbs cfg a0 probs).1 ∧
    (runProbs cfg aN probs).2 = (runProbs cfg a0 probs).2 := by
  induction probs generalizing aN a0 with
  | nil => exact ⟨h, rfl⟩
  | cons p ps ih =>
    have hs := stepWindow_shift cfg N p hpad0 hrate hN aN a0 h
    rw [runProbs_cons, runProbs_cons, hs.2]
    split_ifs with he
    · exact ih _ _ hs.1
    · exact ⟨hs.1, rfl⟩

/-- C1 amended: timestamps are relative to the stream position at the last
`Reset`, not to the current buffer.  With zero padding, a `Detect` call
starting `N` samples into the stream (the samples consumed by earlier
calls) emits exactly the segments of the same call run from the reset
state with every timestamp shifted `N / sampleRate` seconds later
(`shiftSegment`), with identical error outcomes. -/
theorem c1_timestamps_cumulative (cfg : DetectorConfig) (N : ℤ)
    (probs : List ℚ) (hpad0 : cfg.speechPadMs = 0)
    (hrate : 0 < cfg.sampleRate) (hN : 0 ≤ N) :
    (runProbs cfg ⟨⟨N, false, 0⟩, []⟩ probs).1.segs =
      (runProbs cfg ⟨resetState, []⟩ probs).1.segs.map
        (shiftSegment cfg N) ∧
    (runProbs cfg ⟨⟨N, false, 0⟩, []⟩ probs).2 =
      (runProbs cfg ⟨resetState, []⟩ probs).2 ∧
    (∀ s : Segment, shiftSegment cfg N s =
      ⟨s.speechStartAt + (N : ℚ) / (cfg.sampleRate : ℚ),
       if s.speechEndAt = 0 then 0
       else s.speechEndAt + (N : ℚ) / (cfg.sampleRate : ℚ)⟩) := by
  have hrun := runProbs_shift cfg N probs hpad0 hrate hN
    ⟨⟨N, false, 0⟩, []⟩ ⟨resetState, []⟩
    ⟨⟨by dsimp only [resetState]; omega, rfl, fun _ => rfl,
      fun hc => absurd rfl hc⟩, rfl,
     le_refl 0, Or.inl rfl, le_refl 0⟩
  exact ⟨hrun.1.2.1, hrun.2, fun s => rfl⟩

/-- An 8 kHz zero-padding configuration for the C1 witness. -/
def c1WitnessCfg : DetectorConfig := ⟨"model.onnx", 8000, 1/2, 7/20, 0, 1, 0⟩

/-- Witness for the amended C1: a call starting 512 samples into the
stream shifts every timestamp by 512/8000 seconds. -/
theorem c1_timestamps_cumulative_witness :
    c1WitnessCfg.speechPadMs = 0 ∧ 0 < c1WitnessCfg.sampleRate ∧
    (0:ℤ) ≤ 512 ∧
    ((runProbs c1WitnessCfg ⟨⟨512, false, 0⟩, []⟩ [3/5, 1/5]).1.segs =
      (runProbs c1WitnessCfg ⟨resetState, []⟩ [3/5, 1/5]).1.segs.map
        (shiftSegment c1WitnessCfg 512) ∧
    (runProbs c1WitnessCfg ⟨⟨512, false, 0⟩, []⟩ [3/5, 1/5]).2 =
      (runProbs c1WitnessCfg ⟨resetState, []⟩ [3/5, 1/5]).2 ∧
    (∀ s : Segment, shiftSegment c1WitnessCfg 512 s =
      ⟨s.speechStartAt + ((512:ℤ) : ℚ) / (c1WitnessCfg.sampleRate : ℚ),
       if s.speechEndAt = 0 then 0
       else s.speechEndAt +
         ((512:ℤ) : ℚ) / (c1WitnessCfg.sampleRate : ℚ)⟩)) :=
  ⟨rfl, by norm_num [c1WitnessCfg], by norm_num,
   c1_timestamps_cumulative c1WitnessCfg 512 [3/5, 1/5] rfl
     (by norm_num [c1WitnessCfg]) (by norm_num)⟩

/-- An 8 kHz zero-padding configuration (1 ms minimum speech duration so
the post-filter is active but keeps both segments) for the C1
counterexample. -/
def c1CexCfg : DetectorConfig := ⟨"model.onnx", 8000, 1/2, 7/20, 0, 1, 0⟩

/-- C1 counterexample: two successive `Detect` calls (no `Reset` in
between) on identical probability sequences.  The first call returns a
segment starting at 0 s; the second call returns a segment starting at
8/125 s = 512/8000 s — offset by exactly the 512 samples consumed by the
first call — refuting the claim that timestamps are relative to the start
of the buffer passed to the current call. -/
theorem c1_counterexample :
    detectProbs c1CexCfg resetState [3/5, 1/5] =
      (⟨512, false, 0⟩, Except.ok [⟨0, 8/125⟩]) ∧
    detectProbs c1CexCfg ⟨512, false, 0⟩ [3/5, 1/5] =
      (⟨1024, false, 0⟩, Except.ok [⟨8/125, 16/125⟩]) ∧
    (8/125 : ℚ) ≠ 0 ∧ (8/125 : ℚ) = (512 : ℚ) / 8000 := by
  refine ⟨?_, ?_, by norm_num, by norm_num⟩ <;>
    norm_num [detectProbs, runProbs, stepWindow, rearmStep, triggerStep,
      closeStep, speechStartTime, speechEndTime, windowSizeOf,
      speechPadSamples, minSilenceSamples, minSpeechSamples, filterSegments,
      keepSegment, resetState, c1CexCfg, List.getLast?,
      (by decide : Int.tdiv 8000 1000 = 8)]

/-!  ## C6: monotonicity of the segment count in `NegativeThreshold`  -/

/-- The re-arm block in closed form: a speech-probability window always
leaves `tempEnd = 0`. -/
theorem rearmStep_closed_form (cfg : DetectorConfig) (p : ℚ) (st : DetState) :
    rearmStep cfg p st =
      ⟨st.currSample, st.triggered,
       if cfg.threshold ≤ p then 0 else st.tempEnd⟩ := by
  cases st with
  | mk c t e =>
    unfold rearmStep
    dsimp only
    split_ifs with h1 h2 <;> simp_all

/-- The trigger block when it fires. -/
theorem triggerStep_pos (cfg : DetectorConfig) (p : ℚ) (st : DetState)
    (segs : List Segment) (h : cfg.threshold ≤ p ∧ st.triggered = false) :
    triggerStep cfg p st segs =
      ({ st with triggered := true },
       segs ++ [⟨speechStartTime cfg st.currSample, 0⟩]) := by
  unfold triggerStep
  rw [if_pos h]

/-- The trigger block when it does not fire. -/
theorem triggerStep_neg (cfg : DetectorConfig) (p : ℚ) (st : DetState)
    (segs : List Segment) (h : ¬(cfg.threshold ≤ p ∧ st.triggered = false)) :
    triggerStep cfg p st segs = (st, segs) := by
  unfold triggerStep
  rw [if_neg h]

/-- The close block when its guard fails. -/
theorem closeStep_none (cfg : DetectorConfig) (p : ℚ) (st : DetState)
    (segs : List Segment)
    (h : ¬(p < cfg.negativeThreshold ∧ st.triggered = true)) :
    closeStep cfg p st segs = ((st, segs), none) := by
  unfold closeStep
  rw [if_neg h]

/-- The close block when it only arms or extends the silence candidate. -/
theorem closeStep_wait (cfg : DetectorConfig) (p : ℚ) (st : DetState)
    (segs : List Segment)
    (h1 : p < cfg.negativeThreshold ∧ st.triggered = true)
    (h2 : st.currSample -
      (if st.tempEnd = 0 then st.currSample else st.tempEnd) <
      minSilenceSamples cfg) :
    closeStep cfg p st segs =
      (({ st with
           tempEnd := if st.tempEnd = 0 then st.currSample else st.tempEnd },
        segs), none) := by
  unfold closeStep
  rw [if_pos h1]
  dsimp only
  rw [if_pos h2]

/-- The close block when it closes the last segment of a non-empty list:
the state unlatches, the length is unchanged and no error occurs. -/
theorem closeStep_close_spec (cfg : DetectorConfig) (p : ℚ) (st : DetState)
    (segs : List Segment)
    (h1 : p < cfg.negativeThreshold ∧ st.triggered = true)
    (h2 : ¬(st.currSample -
      (if st.tempEnd = 0 then st.currSample else st.tempEnd) <
      minSilenceSamples cfg))
    (hne : segs ≠ []) :
    (closeStep cfg p st segs).1.1 =
      { st with triggered := false, tempEnd := 0 } ∧
    (closeStep cfg p st segs).1.2.length = segs.length ∧
    (closeStep cfg p st segs).1.2 ≠ [] ∧
    (closeStep cfg p st segs).2 = none := by
  rcases closeStep_cases cfg p st segs with
    ⟨hc, hce⟩ | ⟨hc1, hc2, hc3, hce⟩ | ⟨hc1, hc2, hc3, hc4, hce⟩ |
    ⟨last0, hc1, hc2, hc3, hc4, hce⟩
  · exact absurd h1 hc
  · exact absurd hc3 (by omega)
  · exact absurd hc4 hne
  · rw [hce]
    refine ⟨rfl, ?_, by simp, rfl⟩
    dsimp only
    rw [List.length_append, List.length_dropLast]
    have := List.length_pos.mpr hne
    simp
    omega

/-- The simulation invariant between a run with the lower negative
threshold (`a1`) and a run with the higher one (`a2`): same stream
position, the lower-threshold run stays triggered at least as long, any
pending candidate of the higher-threshold run is no later than the
lower-threshold run's, and the lower run has emitted at most as many
segments. -/
def SimInv (a1 a2 : LoopAcc) : Prop :=
  a1.st.currSample = a2.st.currSample ∧
  0 ≤ a1.st.currSample ∧
  (a2.st.triggered = true → a1.st.triggered = true) ∧
  (a1.st.triggered = false → a1.st.tempEnd = 0) ∧
  (a2.st.triggered = false → a2.st.tempEnd = 0) ∧
  (a1.st.tempEnd = 0 ∨
    (0 < a1.st.tempEnd ∧ a1.st.tempEnd ≤ a1.st.currSample)) ∧
  (a2.st.tempEnd = 0 ∨
    (0 < a2.st.tempEnd ∧ a2.st.tempEnd ≤ a2.st.currSample)) ∧
  (a1.st.triggered = true → a2.st.triggered = true →
    a1.st.tempEnd ≠ 0 → a2.st.tempEnd ≠ 0 ∧ a2.st.tempEnd ≤ a1.st.tempEnd) ∧
  (a1.st.triggered = true → a1.segs ≠ []) ∧
  (a2.st.triggered = true → a2.segs ≠ []) ∧
  a1.segs.length ≤ a2.segs.length

/-- The re-arm block preserves the simulation invariant (it does not read
the negative threshold) and leaves both candidates cleared on a
speech-probability window. -/
theorem rearmPhase_mono (cfg : DetectorConfig) (p : ℚ) (a1 a2 : LoopAcc)
    (h : SimInv a1 a2) :
    SimInv ⟨rearmStep cfg p a1.st, a1.segs⟩ ⟨rearmStep cfg p a2.st, a2.segs⟩ ∧
    (cfg.threshold ≤ p → (rearmStep cfg p a1.st).tempEnd = 0 ∧
      (rearmStep cfg p a2.st).tempEnd = 0) := by
  obtain ⟨hcur, hc0, h21, h10, h20, hb1, hb2, h8, ha1, ha2, hlen⟩ := h
  rw [rearmStep_closed_form, rearmStep_closed_form]
  by_cases hA : cfg.threshold ≤ p
  · rw [if_pos hA, if_pos hA]
    exact ⟨⟨hcur, hc0, h21, fun _ => rfl, fun _ => rfl, Or.inl rfl,
      Or.inl rfl, fun _ _ hc => absurd rfl hc, ha1, ha2, hlen⟩,
      fun _ => ⟨rfl, rfl⟩⟩
  · rw [if_neg hA, if_neg hA]
    exact ⟨⟨hcur, hc0, h21, h10, h20, hb1, hb2, h8, ha1, ha2, hlen⟩,
      fun hh => absurd hh hA⟩

/-- The trigger block preserves the simulation invariant (it does not read
the negative threshold), provided a speech-probability window has already
cleared both candidates. -/
theorem triggerPhase_mono (cfg : DetectorConfig) (p : ℚ) (a1 a2 : LoopAcc)
    (h : SimInv a1 a2)
    (hRe : cfg.threshold ≤ p → a1.st.tempEnd = 0 ∧ a2.st.tempEnd = 0) :
    SimInv ⟨(triggerStep cfg p a1.st a1.segs).1,
            (triggerStep cfg p a1.st a1.segs).2⟩
           ⟨(triggerStep cfg p a2.st a2.segs).1,
            (triggerStep cfg p a2.st a2.segs).2⟩ := by
  obtain ⟨hcur, hc0, h21, h10, h20, hb1, hb2, h8, ha1, ha2, hlen⟩ := h
  by_cases hA : cfg.threshold ≤ p
  · obtain ⟨hz1, hz2⟩ := hRe hA
    by_cases hT1 : a1.st.triggered = true
    · rw [triggerStep_neg cfg p a1.st a1.segs
        (fun hh => by rw [hT1] at hh; exact Bool.noConfusion hh.2)]
      by_cases hT2 : a2.st.triggered = true
      · rw [triggerStep_neg cfg p a2.st a2.segs
          (fun hh => by rw [hT2] at hh; exact Bool.noConfusion hh.2)]
        exact ⟨hcur, hc0, h21, h10, h20, hb1, hb2, h8, ha1, ha2, hlen⟩
      · have hT2f : a2.st.triggered = false := by
          cases hB : a2.st.triggered
          · rfl
          · exact absurd hB hT2
        rw [triggerStep_pos cfg p a2.st a2.segs ⟨hA, hT2f⟩]
        unfold SimInv
        dsimp only
        refine ⟨hcur, hc0, fun _ => hT1, h10,
          fun hh => Bool.noConfusion hh, hb1, Or.inl hz2,
          fun _ _ hne => absurd hz1 hne, ha1, fun _ => by simp, ?_⟩
        rw [List.length_append]
        simp
        omega
    · have hT1f : a1.st.triggered = false := by
        cases hB : a1.st.triggered
        · rfl
        · exact absurd hB hT1
      have hT2f : a2.st.triggered = false := by
        cases hB : a2.st.triggered
        · rfl
        · exact absurd (h21 hB) hT1
      rw [triggerStep_pos cfg p a1.st a1.segs ⟨hA, hT1f⟩,
          triggerStep_pos cfg p a2.st a2.segs ⟨hA, hT2f⟩]
      unfold SimInv
      dsimp only
      refine ⟨hcur, hc0, fun _ => rfl, fun hh => Bool.noConfusion hh,
        fun hh => Bool.noConfusion hh, Or.inl hz1, Or.inl hz2,
        fun _ _ hne => absurd hz1 hne, fun _ => by simp, fun _ => by simp, ?_⟩
      rw [List.length_append, List.length_append]
      simp
      omega
  · rw [triggerStep_neg cfg p a1.st a1.segs (fun hh => hA hh.1),
        triggerStep_neg cfg p a2.st a2.segs (fun hh => hA hh.1)]
    exact ⟨hcur, hc0, h21, h10, h20, hb1, hb2, h8, ha1, ha2, hlen⟩

/-- The close block preserves the simulation invariant for negative
thresholds `n1 ≤ n2`, and neither run errors: the higher threshold closes
no later than the lower one, so the lower-threshold run never emits more
segments. -/
theorem closePhase_mono (cfg : DetectorConfig) (n1 n2 p : ℚ)
    (h12 : n1 ≤ n2) (a1 a2 : LoopAcc) (h : SimInv a1 a2) :
    (closeStep { cfg with negativeThreshold := n1 } p a1.st a1.segs).2 =
      none ∧
    (closeStep { cfg with negativeThreshold := n2 } p a2.st a2.segs).2 =
      none ∧
    SimInv
      ⟨(closeStep { cfg with negativeThreshold := n1 } p a1.st a1.segs).1.1,
       (closeStep { cfg with negativeThreshold := n1 } p a1.st a1.segs).1.2⟩
      ⟨(closeStep { cfg with negativeThreshold := n2 } p a2.st a2.segs).1.1,
       (closeStep { cfg with negativeThreshold := n2 } p a2.st a2.segs).1.2⟩ := by
  obtain ⟨hcur, hc0, h21, h10, h20, hb1, hb2, h8, ha1, ha2, hlen⟩ := h
  by_cases hCT1 : p < n1 ∧ a1.st.triggered = true
  · have hC2 : p < n2 := lt_of_lt_of_le hCT1.1 h12
    by_cases hT2 : a2.st.triggered = true
    · have h8i := h8 hCT1.2 hT2
      have htle : (if a2.st.tempEnd = 0 then a2.st.currSample
            else a2.st.tempEnd) ≤
          (if a1.st.tempEnd = 0 then a1.st.currSample else a1.st.tempEnd) := by
        by_cases hz1 : a1.st.tempEnd = 0
        · split_ifs <;> omega
        · obtain ⟨hz, hle⟩ := h8i hz1
          split_ifs <;> omega
      have htz : (if a1.st.tempEnd = 0 then a1.st.currSample
            else a1.st.tempEnd) ≠ 0 →
          (if a2.st.tempEnd = 0 then a2.st.currSample
            else a2.st.tempEnd) ≠ 0 := by
        by_cases hz1 : a1.st.tempEnd = 0
        · split_ifs <;> omega
        · obtain ⟨hz, hle⟩ := h8i hz1
          split_ifs <;> omega
      by_cases hD1 : a1.st.currSample -
          (if a1.st.tempEnd = 0 then a1.st.currSample else a1.st.tempEnd) <
          minSilenceSamples cfg
      · rw [closeStep_wait { cfg with negativeThreshold := n1 } p a1.st
          a1.segs ⟨hCT1.1, hCT1.2⟩ hD1]
        by_cases hD2 : a2.st.currSample -
            (if a2.st.tempEnd = 0 then a2.st.currSample else a2.st.tempEnd) <
            minSilenceSamples cfg
        · rw [closeStep_wait { cfg with negativeThreshold := n2 } p a2.st
            a2.segs ⟨hC2, hT2⟩ hD2]
          unfold SimInv
          dsimp only
          refine ⟨rfl, rfl, hcur, hc0, fun _ => hCT1.2,
            fun hh => Bool.noConfusion (hh.symm.trans hCT1.2),
            fun hh => Bool.noConfusion (hh.symm.trans hT2),
            by split_ifs <;> omega, by split_ifs <;> omega,
            fun _ _ hne => ⟨htz hne, htle⟩,
            fun _ => ha1 hCT1.2, fun _ => ha2 hT2, hlen⟩
        · have spec2 := closeStep_close_spec
            { cfg with negativeThreshold := n2 } p a2.st a2.segs
            ⟨hC2, hT2⟩ hD2 (ha2 hT2)
          rw [spec2.1]
          unfold SimInv
          dsimp only
          refine ⟨rfl, spec2.2.2.2, hcur, hc0,
            fun hh => Bool.noConfusion hh,
            fun hh => Bool.noConfusion (hh.symm.trans hCT1.2),
            fun _ => rfl, by split_ifs <;> omega, Or.inl rfl,
            fun _ hh => Bool.noConfusion hh,
            fun _ => ha1 hCT1.2, fun hh => Bool.noConfusion hh, ?_⟩
          rw [spec2.2.1]
          exact hlen
      · have hD2 : ¬(a2.st.currSample -
            (if a2.st.tempEnd = 0 then a2.st.currSample else a2.st.tempEnd) <
            minSilenceSamples cfg) := by omega
        have spec1 := closeStep_close_spec
          { cfg with negativeThreshold := n1 } p a1.st a1.segs
          ⟨hCT1.1, hCT1.2⟩ hD1 (ha1 hCT1.2)
        have spec2 := closeStep_close_spec
          { cfg with negativeThreshold := n2 } p a2.st a2.segs
          ⟨hC2, hT2⟩ hD2 (ha2 hT2)
        rw [spec1.1, spec2.1]
        unfold SimInv
        dsimp only
        refine ⟨spec1.2.2.2, spec2.2.2.2, hcur, hc0,
          fun hh => Bool.noConfusion hh, fun _ => rfl, fun _ => rfl,
          Or.inl rfl, Or.inl rfl, fun hh => Bool.noConfusion hh,
          fun hh => Bool.noConfusion hh, fun hh => Bool.noConfusion hh, ?_⟩
        rw [spec1.2.1, spec2.2.1]
        exact hlen
    · have hT2f : a2.st.triggered = false := by
        cases hB : a2.st.triggered
        · rfl
        · exact absurd hB hT2
      rw [closeStep_none { cfg with negativeThreshold := n2 } p a2.st a2.segs
        (fun hh => hT2 hh.2)]
      by_cases hD1 : a1.st.currSample -
          (if a1.st.tempEnd = 0 then a1.st.currSample else a1.st.tempEnd) <
          minSilenceSamples cfg
      · rw [closeStep_wait { cfg with negativeThreshold := n1 } p a1.st
          a1.segs ⟨hCT1.1, hCT1.2⟩ hD1]
        unfold SimInv
        dsimp only
        refine ⟨rfl, rfl, hcur, hc0,
          fun hh => Bool.noConfusion (hT2f.symm.trans hh),
          fun hh => Bool.noConfusion (hh.symm.trans hCT1.2),
          fun _ => h20 hT2f, by split_ifs <;> omega, hb2,
          fun _ hh => Bool.noConfusion (hT2f.symm.trans hh),
          fun _ => ha1 hCT1.2, ha2, hlen⟩
      · have spec1 := closeStep_close_spec
          { cfg with negativeThreshold := n1 } p a1.st a1.segs
          ⟨hCT1.1, hCT1.2⟩ hD1 (ha1 hCT1.2)
        rw [spec1.1]
        unfold SimInv
        dsimp only
        refine ⟨spec1.2.2.2, rfl, hcur, hc0,
          fun hh => Bool.noConfusion (hT2f.symm.trans hh),
          fun _ => rfl, fun _ => h20 hT2f, Or.inl rfl, hb2,
          fun hh => Bool.noConfusion hh, fun hh => Bool.noConfusion hh,
          ha2, ?_⟩
        rw [spec1.2.1]
        exact hlen
  · rw [closeStep_none { cfg with negativeThreshold := n1 } p a1.st a1.segs
      hCT1]
    by_cases hCT2 : p < n2 ∧ a2.st.triggered = true
    · by_cases hD2 : a2.st.currSample -
          (if a2.st.tempEnd = 0 then a2.st.currSample else a2.st.tempEnd) <
          minSilenceSamples cfg
      · rw [closeStep_wait { cfg with negativeThreshold := n2 } p a2.st
          a2.segs hCT2 hD2]
        unfold SimInv
        dsimp only
        refine ⟨rfl, rfl, hcur, hc0, fun _ => h21 hCT2.2, h10,
          fun hh => Bool.noConfusion (hh.symm.trans hCT2.2), hb1,
          by split_ifs <;> omega, ?_, ha1, fun _ => ha2 hCT2.2, hlen⟩
        intro htr1 htr2 hne
        obtain ⟨hz, hle⟩ := h8 htr1 hCT2.2 hne
        constructor <;> split_ifs <;> omega
      · have spec2 := closeStep_close_spec
          { cfg with negativeThreshold := n2 } p a2.st a2.segs
          hCT2 hD2 (ha2 hCT2.2)
        rw [spec2.1]
        unfold SimInv
        dsimp only
        refine ⟨rfl, spec2.2.2.2, hcur, hc0,
          fun hh => Bool.noConfusion hh, h10, fun _ => rfl, hb1,
          Or.inl rfl, fun _ hh => Bool.noConfusion hh, ha1,
          fun hh => Bool.noConfusion hh, ?_⟩
        rw [spec2.2.1]
        exact hlen
    · rw [closeStep_none { cfg with negativeThreshold := n2 } p a2.st a2.segs
        hCT2]
      exact ⟨rfl, rfl, hcur, hc0, h21, h10, h20, hb1, hb2, h8, ha1, ha2,
        hlen⟩

/-- One window preserves the simulation invariant between the two
negative thresholds, and neither run errors. -/
theorem stepWindow_mono (cfg : DetectorConfig) (n1 n2 p : ℚ)
    (h12 : n1 ≤ n2) (a1 a2 : LoopAcc) (h : SimInv a1 a2) :
    (stepWindow { cfg with negativeThreshold := n1 } a1 p).2 = none ∧
    (stepWindow { cfg with negativeThreshold := n2 } a2 p).2 = none ∧
    SimInv (stepWindow { cfg with negativeThreshold := n1 } a1 p).1
      (stepWindow { cfg with negativeThreshold := n2 } a2 p).1 := by
  obtain ⟨hcur, hc0, h21, h10, h20, hb1, hb2, h8, ha1, ha2, hlen⟩ := h
  have hw := windowSizeOf_pos cfg
  rw [stepWindow_eq, stepWindow_eq]
  rw [show windowSizeOf { cfg with negativeThreshold := n1 } =
        windowSizeOf cfg from rfl,
      show windowSizeOf { cfg with negativeThreshold := n2 } =
        windowSizeOf cfg from rfl,
      show rearmStep { cfg with negativeThreshold := n1 } =
        rearmStep cfg from rfl,
      show rearmStep { cfg with negativeThreshold := n2 } =
        rearmStep cfg from rfl,
      show triggerStep { cfg with negativeThreshold := n1 } =
        triggerStep cfg from rfl,
      show triggerStep { cfg with negativeThreshold := n2 } =
        triggerStep cfg from rfl]
  have hAdv : SimInv
      ⟨{ a1.st with currSample := a1.st.currSample + windowSizeOf cfg },
       a1.segs⟩
      ⟨{ a2.st with currSample := a2.st.currSample + windowSizeOf cfg },
       a2.segs⟩ := by
    unfold SimInv
    dsimp only
    exact ⟨by omega, by omega, h21, h10, h20, by omega, by omega, h8,
      ha1, ha2, hlen⟩
  have hre := rearmPhase_mono cfg p _ _ hAdv
  have htr := triggerPhase_mono cfg p _ _ hre.1 hre.2
  have hcl := closePhase_mono cfg n1 n2 p h12 _ _ htr
  exact ⟨hcl.1, hcl.2.1, hcl.2.2⟩

/-- The window loop preserves the simulation invariant between the two
negative thresholds, and neither run errors. -/
theorem runProbs_mono (cfg : DetectorConfig) (n1 n2 : ℚ) (probs : List ℚ)
    (h12 : n1 ≤ n2) (a1 a2 : LoopAcc) (h : SimInv a1 a2) :
    (runProbs { cfg with negativeThreshold := n1 } a1 probs).2 = none ∧
    (runProbs { cfg with negativeThreshold := n2 } a2 probs).2 = none ∧
    SimInv (runProbs { cfg with negativeThreshold := n1 } a1 probs).1
      (runProbs { cfg with negativeThreshold := n2 } a2 probs).1 := by
  induction probs generalizing a1 a2 with
  | nil => exact ⟨rfl, rfl, h⟩
  | cons p ps ih =>
    have hs := stepWindow_mono cfg n1 n2 p h12 a1 a2 h
    rw [runProbs_cons, runProbs_cons, if_pos hs.1, if_pos hs.2.1]
    exact ih _ _ hs.2.2

/-- C6 amended: from the reset state, on every probability sequence,
running with negative threshold `n1 ≤ n2` (all other configuration equal)
emits at most as many segments before the minimum-speech-duration
post-filter as running with `n2` — decreasing the negative threshold never
increases the emitted segment count.  (The original claim, which included
the post-filter, fails: see the counterexample.) -/
theorem c6_negative_threshold_monotone (cfg : DetectorConfig) (n1 n2 : ℚ)
    (probs : List ℚ) (h12 : n1 ≤ n2) :
    (runProbs { cfg with negativeThreshold := n1 } ⟨resetState, []⟩
        probs).1.segs.length ≤
      (runProbs { cfg with negativeThreshold := n2 } ⟨resetState, []⟩
        probs).1.segs.length := by
  have hsim : SimInv (⟨resetState, []⟩ : LoopAcc) ⟨resetState, []⟩ :=
    ⟨rfl, le_refl 0, fun hh => hh, fun _ => rfl, fun _ => rfl,
     Or.inl rfl, Or.inl rfl, fun hh => Bool.noConfusion hh,
     fun hh => Bool.noConfusion hh, fun hh => Bool.noConfusion hh,
     le_refl 0⟩
  have hrun := runProbs_mono cfg n1 n2 probs h12 ⟨resetState, []⟩
    ⟨resetState, []⟩ hsim
  obtain ⟨-, -, -, -, -, -, -, -, -, -, -, -, hlen⟩ := hrun
  exact hlen

/-- A base configuration for the C6 witness. -/
def c6WitnessCfg : DetectorConfig := ⟨"model.onnx", 8000, 1/2, 0, 0, 100, 0⟩

/-- Witness for the amended C6 at concrete thresholds `0.1 ≤ 0.4`. -/
theorem c6_negative_threshold_monotone_witness :
    (1/10 : ℚ) ≤ 2/5 ∧
    (runProbs { c6WitnessCfg with negativeThreshold := 1/10 }
        ⟨resetState, []⟩ [3/5, 1/5, 3/5, 1/5]).1.segs.length ≤
      (runProbs { c6WitnessCfg with negativeThreshold := 2/5 }
        ⟨resetState, []⟩ [3/5, 1/5, 3/5, 1/5]).1.segs.length :=
  ⟨by norm_num,
   c6_negative_threshold_monotone c6WitnessCfg (1/10) (2/5)
     [3/5, 1/5, 3/5, 1/5] (by norm_num)⟩

/-- A base configuration (8 kHz, 100 ms minimum speech duration) for the
C6 counterexample. -/
def c6CexCfg : DetectorConfig := ⟨"model.onnx", 8000, 1/2, 0, 0, 100, 0⟩

/-- C6 counterexample, refuting the claim after the post-filter: with the
valid thresholds `n1 = 0.1 < n2 = 0.4 < threshold = 0.5`, on the same
probability sequence the `n2` run emits two short closed segments that the
100 ms minimum-speech filter then drops (zero segments returned), while
the `n1` run never closes and returns one still-open segment — the lower
negative threshold returns MORE segments. -/
theorem c6_counterexample :
    (0 : ℚ) ≤ 1/10 ∧ (1/10 : ℚ) < 2/5 ∧ (2/5 : ℚ) < 1/2 ∧
    detectProbs { c6CexCfg with negativeThreshold := 1/10 } resetState
      [3/5, 1/5, 3/5, 1/5] = (⟨1024, true, 0⟩, Except.ok [⟨0, 0⟩]) ∧
    detectProbs { c6CexCfg with negativeThreshold := 2/5 } resetState
      [3/5, 1/5, 3/5, 1/5] = (⟨1024, false, 0⟩, Except.ok []) ∧
    ([(⟨0, 0⟩ : Segment)].length = 1 ∧ ([] : List Segment).length = 0) := by
  refine ⟨by norm_num, by norm_num, by norm_num, ?_, ?_, by simp, by simp⟩ <;>
    norm_num [detectProbs, runProbs, stepWindow, rearmStep, triggerStep,
      closeStep, speechStartTime, speechEndTime, windowSizeOf,
      speechPadSamples, minSilenceSamples, minSpeechSamples, filterSegments,
      keepSegment, resetState, c6CexCfg, List.getLast?,
      (by decide : Int.tdiv 800000 1000 = 800)]
